import Mathlib

/-!
# Verification of the DesignFlow ("MemoryLane") data-access layer and calendar utility

This file is a shallow embedding, in Lean 4, of the in-memory storage layer
(`MemStorage` in `server/storage.ts`), the relevant HTTP route handlers
(`server/routes.ts`), and the calendar-grid utility (`client/src/lib/date-utils.ts`)
of the MemoryLane social web application, together with theorems settling the
specification's testable properties.

Modelling conventions:
* A JavaScript `Map<number, T>` is modelled as an association list
  `List (Nat × T)` in insertion order; `Map.set` replaces in place when the key
  is present and appends otherwise, `Map.delete` removes the key, and
  `Array.from(map.values())` is the list of values in insertion order.
* JavaScript `Date` timestamps are modelled as integers (`Int`); comparators of
  the form `(a, b) => b.date - a.date` become a descending stable sort by that
  integer.  `new Date()` inside a mutation becomes an explicit `now : Int`
  parameter.
* A TypeScript method that can `throw` returns `Except String`; the string is
  the thrown error message.  Methods with no throw path are total functions.
-/

namespace DesignFlow

/-! ## The JavaScript `Map` model -/

/-- `Map.get k`: the value stored at key `k`, if any. -/
def mget {α : Type} (l : List (Nat × α)) (k : Nat) : Option α :=
  (l.find? (fun p => p.1 == k)).map Prod.snd

/-- `Map.set k v`: replace in place when `k` is already bound, append otherwise
(JavaScript `Map.set` keeps the original insertion position of an existing key). -/
def mset {α : Type} (l : List (Nat × α)) (k : Nat) (v : α) : List (Nat × α) :=
  if l.any (fun p => p.1 == k) then
    l.map (fun p => if p.1 == k then (k, v) else p)
  else
    l ++ [(k, v)]

/-- `Map.delete k`: remove the binding of key `k`. -/
def mdel {α : Type} (l : List (Nat × α)) (k : Nat) : List (Nat × α) :=
  l.filter (fun p => p.1 != k)

/-- `Array.from(map.values())`: the stored values in insertion order. -/
def mvalues {α : Type} (l : List (Nat × α)) : List α :=
  l.map Prod.snd

/-! ## Entities (shared/schema.ts) -/

/-- A row of the `users` table. -/
structure User where
  id : Nat
  username : String
  password : String
  displayName : Option String
  bio : Option String
  avatar : Option String
  createdAt : Int
deriving DecidableEq, Repr

/-- `InsertUser`: the creation-input subset of `User`. -/
structure InsertUser where
  username : String
  password : String
  displayName : Option String
  bio : Option String
  avatar : Option String
deriving DecidableEq, Repr

/-- A row of the `memories` table.  `date` is the event date, distinct from
`createdAt`; both are modelled as integer timestamps. -/
structure Memory where
  id : Nat
  userId : Nat
  title : String
  content : String
  images : List String
  date : Int
  location : Option String
  isPrivate : Bool
  createdAt : Int
deriving DecidableEq, Repr

/-- `InsertMemory`: the creation-input subset of `Memory`. -/
structure InsertMemory where
  userId : Nat
  title : String
  content : String
  images : List String
  date : Int
  location : Option String
  isPrivate : Bool
deriving DecidableEq, Repr

/-- A row of the `friends` table: a directed relationship record with a
status in `{"pending", "accepted", "rejected"}`. -/
structure Friend where
  id : Nat
  userId : Nat
  friendId : Nat
  status : String
  createdAt : Int
deriving DecidableEq, Repr

/-- A row of the `groups` table. -/
structure Group where
  id : Nat
  name : String
  description : Option String
  createdBy : Nat
  avatar : Option String
  createdAt : Int
deriving DecidableEq, Repr

/-- `InsertGroup`: the creation-input subset of `Group`. -/
structure InsertGroup where
  name : String
  description : Option String
  createdBy : Nat
  avatar : Option String
deriving DecidableEq, Repr

/-- A row of the `group_members` table. -/
structure GroupMember where
  id : Nat
  groupId : Nat
  userId : Nat
  role : String
  joinedAt : Int
deriving DecidableEq, Repr

/-- `InsertGroupMember`: the creation-input subset of `GroupMember`. -/
structure InsertGroupMember where
  groupId : Nat
  userId : Nat
  role : String
deriving DecidableEq, Repr

/-- A row of the `notifications` table. -/
structure Notification where
  id : Nat
  userId : Nat
  type : String
  content : String
  read : Bool
  relatedId : Option Nat
  createdAt : Int
deriving DecidableEq, Repr

/-- `InsertNotification`: the creation-input subset of `Notification`. -/
structure InsertNotification where
  userId : Nat
  type : String
  content : String
  read : Bool
  relatedId : Option Nat
deriving DecidableEq, Repr

/-- A row of the `comments` table. -/
structure Comment where
  id : Nat
  memoryId : Nat
  userId : Nat
  content : String
  createdAt : Int
deriving DecidableEq, Repr

/-- `InsertComment`: the creation-input subset of `Comment`. -/
structure InsertComment where
  memoryId : Nat
  userId : Nat
  content : String
deriving DecidableEq, Repr

/-- TypeScript `Partial<User>`: every field optional (a supplied field
overrides the existing one in the shallow merge `{ ...user, ...userData }`). -/
structure UserPatch where
  id : Option Nat := none
  username : Option String := none
  password : Option String := none
  displayName : Option (Option String) := none
  bio : Option (Option String) := none
  avatar : Option (Option String) := none
  createdAt : Option Int := none
deriving DecidableEq, Repr

/-- The shallow merge `{ ...user, ...userData }`. -/
def applyUserPatch (u : User) (p : UserPatch) : User :=
  { id := p.id.getD u.id
    username := p.username.getD u.username
    password := p.password.getD u.password
    displayName := p.displayName.getD u.displayName
    bio := p.bio.getD u.bio
    avatar := p.avatar.getD u.avatar
    createdAt := p.createdAt.getD u.createdAt }

/-- TypeScript `Partial<Memory>`. -/
structure MemoryPatch where
  id : Option Nat := none
  userId : Option Nat := none
  title : Option String := none
  content : Option String := none
  images : Option (List String) := none
  date : Option Int := none
  location : Option (Option String) := none
  isPrivate : Option Bool := none
  createdAt : Option Int := none
deriving DecidableEq, Repr

/-- The shallow merge `{ ...memory, ...memoryData }`. -/
def applyMemoryPatch (m : Memory) (p : MemoryPatch) : Memory :=
  { id := p.id.getD m.id
    userId := p.userId.getD m.userId
    title := p.title.getD m.title
    content := p.content.getD m.content
    images := p.images.getD m.images
    date := p.date.getD m.date
    location := p.location.getD m.location
    isPrivate := p.isPrivate.getD m.isPrivate
    createdAt := p.createdAt.getD m.createdAt }

/-- TypeScript `Partial<Group>`. -/
structure GroupPatch where
  id : Option Nat := none
  name : Option String := none
  description : Option (Option String) := none
  createdBy : Option Nat := none
  avatar : Option (Option String) := none
  createdAt : Option Int := none
deriving DecidableEq, Repr

/-- The shallow merge `{ ...group, ...groupData }`. -/
def applyGroupPatch (g : Group) (p : GroupPatch) : Group :=
  { id := p.id.getD g.id
    name := p.name.getD g.name
    description := p.description.getD g.description
    createdBy := p.createdBy.getD g.createdBy
    avatar := p.avatar.getD g.avatar
    createdAt := p.createdAt.getD g.createdAt }

/-! ## The store (`MemStorage` private maps and id counters) -/

/-- The whole mutable state of a `MemStorage` instance: seven maps and seven
auto-incrementing id counters. -/
structure Store where
  users : List (Nat × User)
  memories : List (Nat × Memory)
  friends : List (Nat × Friend)
  groups : List (Nat × Group)
  groupMembers : List (Nat × GroupMember)
  notifications : List (Nat × Notification)
  comments : List (Nat × Comment)
  userIdCounter : Nat
  memoryIdCounter : Nat
  friendIdCounter : Nat
  groupIdCounter : Nat
  groupMemberIdCounter : Nat
  notificationIdCounter : Nat
  commentIdCounter : Nat
deriving DecidableEq, Repr

/-- The state built by the `MemStorage` constructor: empty maps, every counter 1. -/
def emptyStore : Store :=
  { users := [], memories := [], friends := [], groups := [], groupMembers := []
    notifications := [], comments := []
    userIdCounter := 1, memoryIdCounter := 1, friendIdCounter := 1, groupIdCounter := 1
    groupMemberIdCounter := 1, notificationIdCounter := 1, commentIdCounter := 1 }

/-! ## Read-only storage operations -/

/-- `MemStorage.getUser`. -/
def getUser (s : Store) (id : Nat) : Option User :=
  mget s.users id

/-- `MemStorage.getUserByUsername`. -/
def getUserByUsername (s : Store) (username : String) : Option User :=
  (mvalues s.users).find? (fun u => u.username == username)

/-- `MemStorage.getMemory`. -/
def getMemory (s : Store) (id : Nat) : Option Memory :=
  mget s.memories id

/-- `MemStorage.getFriendRequest`. -/
def getFriendRequest (s : Store) (id : Nat) : Option Friend :=
  mget s.friends id

/-- `MemStorage.getGroup`. -/
def getGroup (s : Store) (id : Nat) : Option Group :=
  mget s.groups id

/-- `MemStorage.getNotification`. -/
def getNotification (s : Store) (id : Nat) : Option Notification :=
  mget s.notifications id

/-- `MemStorage.getComment`. -/
def getComment (s : Store) (id : Nat) : Option Comment :=
  mget s.comments id

/-- `MemStorage.getUserFriends`: every friend record in which the user appears
on either side, regardless of status. -/
def getUserFriends (s : Store) (userId : Nat) : List Friend :=
  (mvalues s.friends).filter (fun f => f.userId == userId || f.friendId == userId)

/-- `MemStorage.getGroupMembers`. -/
def getGroupMembers (s : Store) (groupId : Nat) : List GroupMember :=
  (mvalues s.groupMembers).filter (fun m => m.groupId == groupId)

/-- `MemStorage.getGroupMembership`. -/
def getGroupMembership (s : Store) (groupId : Nat) (userId : Nat) : Option GroupMember :=
  (mvalues s.groupMembers).find? (fun m => m.groupId == groupId && m.userId == userId)

/-- `MemStorage.getUserGroups`. -/
def getUserGroups (s : Store) (userId : Nat) : List Group :=
  let userMemberships := (mvalues s.groupMembers).filter (fun m => m.userId == userId)
  let groupIds := userMemberships.map (fun m => m.groupId)
  (mvalues s.groups).filter (fun g => groupIds.contains g.id)

/-- The `.sort((a, b) => new Date(b.date).getTime() - new Date(a.date).getTime())`
comparator: a stable sort, newest event date first (JavaScript `Array.sort` is
stable; insertion sort is the stable reference sort). -/
def sortByDateDesc (l : List Memory) : List Memory :=
  l.insertionSort (fun a b => b.date ≤ a.date)

/-- `MemStorage.getUserMemories`. -/
def getUserMemories (s : Store) (userId : Nat) : List Memory :=
  sortByDateDesc ((mvalues s.memories).filter (fun m => m.userId == userId))

/-- `MemStorage.getUserPublicMemories`. -/
def getUserPublicMemories (s : Store) (userId : Nat) : List Memory :=
  sortByDateDesc ((mvalues s.memories).filter (fun m => m.userId == userId && !m.isPrivate))

/-- `MemStorage.getAccessibleMemories`.  The source also computes the caller's
group ids, but the group branch of the filter is dead code (an acknowledged gap
in the source: only a comment stands where group sharing would be checked), so
that computation has no effect on the result and is omitted here. -/
def getAccessibleMemories (s : Store) (userId : Nat) : List Memory :=
  let userFriends := getUserFriends s userId
  let friendIds := (userFriends.filter (fun f => f.status == "accepted")).map
    (fun f => if f.userId == userId then f.friendId else f.userId)
  sortByDateDesc ((mvalues s.memories).filter
    (fun m => m.userId == userId || (!m.isPrivate && friendIds.contains m.userId)))

/-- `MemStorage.getGroupMemories`. -/
def getGroupMemories (s : Store) (groupId : Nat) : List Memory :=
  let memberIds := (getGroupMembers s groupId).map (fun m => m.userId)
  sortByDateDesc ((mvalues s.memories).filter
    (fun m => memberIds.contains m.userId && !m.isPrivate))

/-! ## Mutating storage operations -/

/-- `MemStorage.createUser`. -/
def createUser (s : Store) (userData : InsertUser) (now : Int) : User × Store :=
  let id := s.userIdCounter
  let user : User :=
    { id := id, username := userData.username, password := userData.password
      displayName := userData.displayName, bio := userData.bio
      avatar := userData.avatar, createdAt := now }
  (user, { s with users := mset s.users id user, userIdCounter := id + 1 })

/-- `MemStorage.updateUser`: throws `"User not found"` on a missing id,
otherwise shallow-merges the patch over the record. -/
def updateUser (s : Store) (id : Nat) (userData : UserPatch) : Except String (User × Store) :=
  match getUser s id with
  | none => .error "User not found"
  | some user =>
    let updatedUser := applyUserPatch user userData
    .ok (updatedUser, { s with users := mset s.users id updatedUser })

/-- `MemStorage.createMemory`. -/
def createMemory (s : Store) (memoryData : InsertMemory) (now : Int) : Memory × Store :=
  let id := s.memoryIdCounter
  let memory : Memory :=
    { id := id, userId := memoryData.userId, title := memoryData.title
      content := memoryData.content, images := memoryData.images
      date := memoryData.date, location := memoryData.location
      isPrivate := memoryData.isPrivate, createdAt := now }
  (memory, { s with memories := mset s.memories id memory, memoryIdCounter := id + 1 })

/-- `MemStorage.updateMemory`: throws `"Memory not found"` on a missing id. -/
def updateMemory (s : Store) (id : Nat) (memoryData : MemoryPatch) :
    Except String (Memory × Store) :=
  match getMemory s id with
  | none => .error "Memory not found"
  | some memory =>
    let updatedMemory := applyMemoryPatch memory memoryData
    .ok (updatedMemory, { s with memories := mset s.memories id updatedMemory })

/-- `MemStorage.deleteMemory`: removes the memory (silently, whether or not it
exists) and then deletes every comment whose `memoryId` equals the id, each by
its own `comment.id`. -/
def deleteMemory (s : Store) (id : Nat) : Store :=
  let commentsToDelete := (mvalues s.comments).filter (fun c => c.memoryId == id)
  { s with
    memories := mdel s.memories id
    comments := commentsToDelete.foldl (fun cs c => mdel cs c.id) s.comments }

/-- `MemStorage.createNotification`. -/
def createNotification (s : Store) (notificationData : InsertNotification) (now : Int) :
    Notification × Store :=
  let id := s.notificationIdCounter
  let notification : Notification :=
    { id := id, userId := notificationData.userId, type := notificationData.type
      content := notificationData.content, read := notificationData.read
      relatedId := notificationData.relatedId, createdAt := now }
  (notification,
    { s with notifications := mset s.notifications id notification
             notificationIdCounter := id + 1 })

/-- `MemStorage.markNotificationAsRead`: throws `"Notification not found"` on a
missing id. -/
def markNotificationAsRead (s : Store) (id : Nat) : Except String (Notification × Store) :=
  match getNotification s id with
  | none => .error "Notification not found"
  | some notification =>
    let updatedNotification := { notification with read := true }
    .ok (updatedNotification,
      { s with notifications := mset s.notifications id updatedNotification })

/-- `MemStorage.createFriendRequest`: throws `"Friend request already exists"`
when any record links the pair in either direction (whatever its status);
otherwise inserts a pending record and a notification addressed to `friendId`. -/
def createFriendRequest (s : Store) (userId friendId : Nat) (now : Int) :
    Except String (Friend × Store) :=
  let existingRequests := (mvalues s.friends).filter (fun f =>
    (f.userId == userId && f.friendId == friendId) ||
    (f.userId == friendId && f.friendId == userId))
  if existingRequests.length > 0 then
    .error "Friend request already exists"
  else
    let id := s.friendIdCounter
    let friendRequest : Friend :=
      { id := id, userId := userId, friendId := friendId, status := "pending", createdAt := now }
    let s1 := { s with friends := mset s.friends id friendRequest, friendIdCounter := id + 1 }
    let s2 := (createNotification s1
      { userId := friendId, type := "friend_request"
        content := "You have a new friend request", read := false, relatedId := some id } now).2
    .ok (friendRequest, s2)

/-- `MemStorage.acceptFriendRequest`: throws `"Friend request not found"` on a
missing id; otherwise sets the status to `"accepted"` and notifies the
original requester (`request.userId`). -/
def acceptFriendRequest (s : Store) (requestId : Nat) (now : Int) :
    Except String (Friend × Store) :=
  match getFriendRequest s requestId with
  | none => .error "Friend request not found"
  | some request =>
    let updatedRequest := { request with status := "accepted" }
    let s1 := { s with friends := mset s.friends requestId updatedRequest }
    let s2 := (createNotification s1
      { userId := request.userId, type := "friend_accepted"
        content := "Your friend request was accepted", read := false
        relatedId := some requestId } now).2
    .ok (updatedRequest, s2)

/-- `MemStorage.rejectFriendRequest`: throws `"Friend request not found"` on a
missing id; otherwise sets the status to `"rejected"` (the record is kept and
no notification is created). -/
def rejectFriendRequest (s : Store) (requestId : Nat) : Except String Store :=
  match getFriendRequest s requestId with
  | none => .error "Friend request not found"
  | some request =>
    let updatedRequest := { request with status := "rejected" }
    .ok { s with friends := mset s.friends requestId updatedRequest }

/-- `MemStorage.removeFriend`: deletes every record linking the pair in either
direction, each by its own `friendship.id`. -/
def removeFriend (s : Store) (userId friendId : Nat) : Store :=
  let friendships := (mvalues s.friends).filter (fun f =>
    (f.userId == userId && f.friendId == friendId) ||
    (f.userId == friendId && f.friendId == userId))
  { s with friends := friendships.foldl (fun fs f => mdel fs f.id) s.friends }

/-- `MemStorage.createGroup`. -/
def createGroup (s : Store) (groupData : InsertGroup) (now : Int) : Group × Store :=
  let id := s.groupIdCounter
  let group : Group :=
    { id := id, name := groupData.name, description := groupData.description
      createdBy := groupData.createdBy, avatar := groupData.avatar, createdAt := now }
  (group, { s with groups := mset s.groups id group, groupIdCounter := id + 1 })

/-- `MemStorage.updateGroup`: throws `"Group not found"` on a missing id. -/
def updateGroup (s : Store) (id : Nat) (groupData : GroupPatch) :
    Except String (Group × Store) :=
  match getGroup s id with
  | none => .error "Group not found"
  | some group =>
    let updatedGroup := applyGroupPatch group groupData
    .ok (updatedGroup, { s with groups := mset s.groups id updatedGroup })

/-- `MemStorage.deleteGroup`: removes the group (silently, whether or not it
exists) and then deletes every membership of that group. -/
def deleteGroup (s : Store) (id : Nat) : Store :=
  let membersToDelete := (mvalues s.groupMembers).filter (fun m => m.groupId == id)
  { s with
    groups := mdel s.groups id
    groupMembers := membersToDelete.foldl (fun ms m => mdel ms m.id) s.groupMembers }

/-- `MemStorage.addGroupMember`: unconditional insertion (the duplicate check
lives in the HTTP routes, not here). -/
def addGroupMember (s : Store) (memberData : InsertGroupMember) (now : Int) :
    GroupMember × Store :=
  let id := s.groupMemberIdCounter
  let member : GroupMember :=
    { id := id, groupId := memberData.groupId, userId := memberData.userId
      role := memberData.role, joinedAt := now }
  (member, { s with groupMembers := mset s.groupMembers id member
                    groupMemberIdCounter := id + 1 })

/-- `MemStorage.updateGroupMember`: throws `"Group membership not found"` when
no membership matches the pair. -/
def updateGroupMember (s : Store) (groupId userId : Nat) (role : String) :
    Except String (GroupMember × Store) :=
  match getGroupMembership s groupId userId with
  | none => .error "Group membership not found"
  | some membership =>
    let updatedMembership := { membership with role := role }
    .ok (updatedMembership,
      { s with groupMembers := mset s.groupMembers membership.id updatedMembership })

/-- `MemStorage.removeGroupMember`: silently does nothing when no membership
matches the pair. -/
def removeGroupMember (s : Store) (groupId userId : Nat) : Store :=
  match getGroupMembership s groupId userId with
  | none => s
  | some membership => { s with groupMembers := mdel s.groupMembers membership.id }

/-- `MemStorage.createComment`: inserts the comment, then notifies the memory
owner only when the memory exists and the commenter is not its owner. -/
def createComment (s : Store) (commentData : InsertComment) (now : Int) : Comment × Store :=
  let id := s.commentIdCounter
  let comment : Comment :=
    { id := id, memoryId := commentData.memoryId, userId := commentData.userId
      content := commentData.content, createdAt := now }
  let s1 := { s with comments := mset s.comments id comment, commentIdCounter := id + 1 }
  match getMemory s commentData.memoryId with
  | some memory =>
    if memory.userId ≠ commentData.userId then
      (comment, (createNotification s1
        { userId := memory.userId, type := "new_comment"
          content := "Someone commented on your memory", read := false
          relatedId := some id } now).2)
    else (comment, s1)
  | none => (comment, s1)

/-- `MemStorage.deleteComment`: silent removal, no existence check. -/
def deleteComment (s : Store) (id : Nat) : Store :=
  { s with comments := mdel s.comments id }

/-! ## HTTP route handlers (server/routes.ts)

Authentication is modelled by passing the id of the session user
(`req.user.id`) as an explicit `caller` argument; the handlers below assume an
authenticated caller, exactly as the guarded code after the
`req.isAuthenticated()` check does. -/

/-- The body-less part of an HTTP response: a status code and, for 200, the
memory payload. -/
def getMemoryRoute (s : Store) (caller : Nat) (memoryId : Nat) : Nat × Option Memory :=
  match getMemory s memoryId with
  | none => (404, none)
  | some memory =>
    if memory.userId ≠ caller ∧ memory.isPrivate then (403, none)
    else (200, some memory)

/-- `POST /api/groups`: creates the group with `createdBy := req.user.id`,
then unconditionally adds the creator as an `"admin"` member. -/
def createGroupRoute (s : Store) (groupData : InsertGroup) (now : Int) : Group × Store :=
  let gs := createGroup s groupData now
  let ms := addGroupMember gs.2
    { groupId := gs.1.id, userId := groupData.createdBy, role := "admin" } now
  (gs.1, ms.2)

/-- Modelled from the spec: the registration handler of the authentication
module (`setupAuth` in `server/auth.ts`), which is not present under `src/`;
per the spec, "Username uniqueness is an invariant enforced at creation", so
registration looks the username up with `getUserByUsername` and fails with a
Conflict-style error when a user with that username already exists, calling
`createUser` otherwise. -/
def registerUser (s : Store) (userData : InsertUser) (now : Int) :
    Except String (User × Store) :=
  match getUserByUsername s userData.username with
  | some _ => .error "Username already exists"
  | none => .ok (createUser s userData now)

/-! ## Reachable stores

`Step s s'` holds when one (successful) mutating HTTP request turns store `s`
into store `s'`.  Each constructor mirrors one route of `server/routes.ts`
(plus the spec-modelled registration route); the hypotheses are the route's
own guards, and callers are required to be existing users (a session only
authenticates a registered user).  `server/storage.ts` has a `deleteGroup`
operation, but no route invokes it, so it has no constructor here. -/
inductive Step : Store → Store → Prop where
  | register (s : Store) (d : InsertUser) (now : Int)
      (hname : getUserByUsername s d.username = none) :
      Step s (createUser s d now).2
  | updateUserR (s : Store) (caller : Nat) (p : UserPatch) (u : User) (s' : Store)
      (h : updateUser s caller p = .ok (u, s')) :
      Step s s'
  | createMemoryR (s : Store) (d : InsertMemory) (now : Int)
      (hauth : (getUser s d.userId).isSome) :
      Step s (createMemory s d now).2
  | updateMemoryR (s : Store) (caller : Nat) (mid : Nat) (p : MemoryPatch)
      (mem : Memory) (m' : Memory) (s' : Store)
      (hget : getMemory s mid = some mem) (hown : mem.userId = caller)
      (h : updateMemory s mid p = .ok (m', s')) :
      Step s s'
  | deleteMemoryR (s : Store) (caller : Nat) (mid : Nat) (mem : Memory)
      (hget : getMemory s mid = some mem) (hown : mem.userId = caller) :
      Step s (deleteMemory s mid)
  | friendRequestR (s : Store) (caller friendId : Nat) (now : Int) (fr : Friend) (s' : Store)
      (hself : caller ≠ friendId) (hfriend : (getUser s friendId).isSome)
      (hauth : (getUser s caller).isSome)
      (h : createFriendRequest s caller friendId now = .ok (fr, s')) :
      Step s s'
  | acceptFriendR (s : Store) (caller : Nat) (rid : Nat) (now : Int)
      (req : Friend) (fr : Friend) (s' : Store)
      (hget : getFriendRequest s rid = some req) (hfor : req.friendId = caller)
      (h : acceptFriendRequest s rid now = .ok (fr, s')) :
      Step s s'
  | rejectFriendR (s : Store) (caller : Nat) (rid : Nat) (req : Friend) (s' : Store)
      (hget : getFriendRequest s rid = some req) (hfor : req.friendId = caller)
      (h : rejectFriendRequest s rid = .ok s') :
      Step s s'
  | removeFriendR (s : Store) (caller friendId : Nat)
      (hauth : (getUser s caller).isSome) :
      Step s (removeFriend s caller friendId)
  | createGroupR (s : Store) (d : InsertGroup) (now : Int)
      (hauth : (getUser s d.createdBy).isSome) :
      Step s (createGroupRoute s d now).2
  | updateGroupR (s : Store) (caller : Nat) (gid : Nat) (p : GroupPatch)
      (m : GroupMember) (g' : Group) (s' : Store)
      (hmem : getGroupMembership s gid caller = some m) (hrole : m.role = "admin")
      (h : updateGroup s gid p = .ok (g', s')) :
      Step s s'
  | joinGroupR (s : Store) (caller : Nat) (gid : Nat) (now : Int)
      (hgroup : (getGroup s gid).isSome)
      (hnot : getGroupMembership s gid caller = none)
      (hauth : (getUser s caller).isSome) :
      Step s (addGroupMember s { groupId := gid, userId := caller, role := "member" } now).2
  | leaveGroupR (s : Store) (caller : Nat) (gid : Nat)
      (hmem : (getGroupMembership s gid caller).isSome) :
      Step s (removeGroupMember s gid caller)
  | removeMemberR (s : Store) (caller : Nat) (gid uid : Nat) (m : GroupMember)
      (hmem : getGroupMembership s gid caller = some m) (hrole : m.role = "admin") :
      Step s (removeGroupMember s gid uid)
  | markReadR (s : Store) (caller : Nat) (nid : Nat) (n : Notification)
      (n' : Notification) (s' : Store)
      (hget : getNotification s nid = some n) (hown : n.userId = caller)
      (h : markNotificationAsRead s nid = .ok (n', s')) :
      Step s s'
  | createCommentR (s : Store) (d : InsertComment) (now : Int)
      (hauth : (getUser s d.userId).isSome) :
      Step s (createComment s d now).2
  | deleteCommentR (s : Store) (caller : Nat) (cid : Nat) (c : Comment)
      (hget : getComment s cid = some c) (hown : c.userId = caller) :
      Step s (deleteComment s cid)

/-- The stores the running application can be in: everything reachable from
the freshly constructed `MemStorage` by mutating HTTP requests. -/
inductive Reachable : Store → Prop where
  | init : Reachable emptyStore
  | step {s s' : Store} : Reachable s → Step s s' → Reachable s'

/-! ## The calendar utility (client/src/lib/date-utils.ts)

The utility operates on JavaScript `Date` values through date-fns.  A calendar
date is modelled as a year / month (1–12) / day-of-month triple in the
proleptic Gregorian calendar (the calendar JavaScript `Date` implements, with
local-time fields; the utility only ever inspects year, month, day and
weekday).  `toRata` is the count of days since 1970-01-01 (the standard
civil-from-days correspondence), and `getDay` is the JavaScript weekday,
`0 = Sunday`; 1970-01-01 was a Thursday (`getDay = 4`). -/

namespace DateUtils

/-- A calendar date: year, month (1–12), day of month (1–31). -/
structure CDate where
  year : Int
  month : Nat
  day : Nat
deriving DecidableEq, Repr

/-- Gregorian leap-year rule (as implemented by JavaScript `Date`). -/
def isLeap (y : Int) : Bool :=
  (y % 4 == 0 && y % 100 != 0) || y % 400 == 0

/-- Length of a month in the proleptic Gregorian calendar. -/
def daysInMonth (y : Int) (m : Nat) : Nat :=
  match m with
  | 1 => 31 | 2 => if isLeap y then 29 else 28
  | 3 => 31 | 4 => 30 | 5 => 31 | 6 => 30 | 7 => 31
  | 8 => 31 | 9 => 30 | 10 => 31 | 11 => 30 | 12 => 31
  | _ => 0

/-- A structurally valid calendar date. -/
def Valid (d : CDate) : Prop :=
  1 ≤ d.month ∧ d.month ≤ 12 ∧ 1 ≤ d.day ∧ d.day ≤ daysInMonth d.year d.month

instance (d : CDate) : Decidable (Valid d) := by unfold Valid; infer_instance

/-- Days elapsed since 1970-01-01 (negative before the epoch): the standard
days-from-civil formula for the proleptic Gregorian calendar, with the year
starting in March so that the leap day comes last. -/
def toRata (d : CDate) : Int :=
  let y : Int := if d.month ≤ 2 then d.year - 1 else d.year
  let mp : Int := ((d.month : Int) + 9) % 12
  let doy : Int := (153 * mp + 2) / 5 + ((d.day : Int) - 1)
  365 * y + y / 4 - y / 100 + y / 400 + doy - 719468

/-- JavaScript `Date.prototype.getDay`: weekday with `0 = Sunday`. -/
def getDay (d : CDate) : Nat :=
  ((toRata d + 4) % 7).toNat

/-- date-fns `startOfMonth`. -/
def startOfMonth (d : CDate) : CDate :=
  { d with day := 1 }

/-- date-fns `endOfMonth`. -/
def endOfMonth (d : CDate) : CDate :=
  { d with day := daysInMonth d.year d.month }

/-- date-fns `addMonths`: shift by whole months, keeping the day of month
(whenever it stays valid; the utility only applies this to day 1). -/
def addMonths (d : CDate) (n : Int) : CDate :=
  let t : Int := d.year * 12 + ((d.month : Int) - 1) + n
  { year := t / 12, month := (t % 12).toNat + 1, day := d.day }

/-- date-fns `subMonths`. -/
def subMonths (d : CDate) (n : Int) : CDate :=
  addMonths d (-n)

/-- The next calendar day (date-fns steps through intervals one day at a
time). -/
def succDay (d : CDate) : CDate :=
  if d.day < daysInMonth d.year d.month then { d with day := d.day + 1 }
  else if d.month < 12 then { year := d.year, month := d.month + 1, day := 1 }
  else { year := d.year + 1, month := 1, day := 1 }

/-- `n` consecutive days starting at `d`. -/
def eachDayFrom : Nat → CDate → List CDate
  | 0, _ => []
  | n + 1, d => d :: eachDayFrom n (succDay d)

/-- date-fns `eachDayOfInterval {start, stop}`: every day from `start` to
`stop` inclusive (empty when the interval is reversed). -/
def eachDayOfInterval (start stop : CDate) : List CDate :=
  eachDayFrom (toRata stop - toRata start + 1).toNat start

/-- `getCalendarDays` (client/src/lib/date-utils.ts): the 42-cell (6×7) month
grid — leading days of the previous month down to the nearest Sunday, every
day of the target month, then days of the next month filling up to 42. -/
def getCalendarDays (date : CDate) : List CDate :=
  let start := startOfMonth date
  let stop := endOfMonth date
  let monthDays := eachDayOfInterval start stop
  let firstDayOfWeek := getDay start
  let previousMonthDays :=
    if firstDayOfWeek > 0 then
      let prevMonth := subMonths start 1
      let prevMonthEnd := endOfMonth prevMonth
      let startDay : CDate := { prevMonthEnd with day := prevMonthEnd.day - firstDayOfWeek + 1 }
      eachDayOfInterval startDay prevMonthEnd
    else []
  let daysToAdd : Int := 42 - ((previousMonthDays.length + monthDays.length : Nat) : Int)
  let nextMonthDays :=
    if daysToAdd > 0 then
      let nextMonth := addMonths start 1
      eachDayOfInterval { year := nextMonth.year, month := nextMonth.month, day := 1 }
        { year := nextMonth.year, month := nextMonth.month, day := daysToAdd.toNat }
    else []
  previousMonthDays ++ monthDays ++ nextMonthDays

end DateUtils

/-! ## Lemmas about the `Map` model -/

theorem mem_mset_self {α : Type} (l : List (Nat × α)) (k : Nat) (v : α) :
    (k, v) ∈ mset l k v := by
  unfold mset
  split
  · rename_i h
    rw [List.any_eq_true] at h
    obtain ⟨p, hp, hpk⟩ := h
    rw [List.mem_map]
    exact ⟨p, hp, by simp [hpk]⟩
  · simp

theorem mset_append {α : Type} {l : List (Nat × α)} {k : Nat} (v : α)
    (h : ∀ p ∈ l, p.1 ≠ k) : mset l k v = l ++ [(k, v)] := by
  unfold mset
  rw [if_neg]
  simp only [List.any_eq_true, not_exists, not_and]
  intro p hp
  simpa using h p hp

theorem mget_eq_none_iff {α : Type} {l : List (Nat × α)} {k : Nat} :
    mget l k = none ↔ ∀ p ∈ l, p.1 ≠ k := by
  simp [mget, List.find?_eq_none]

theorem mem_of_mget_eq_some {α : Type} {l : List (Nat × α)} {k : Nat} {v : α}
    (h : mget l k = some v) : (k, v) ∈ l := by
  unfold mget at h
  obtain ⟨p, hp, hpv⟩ := Option.map_eq_some'.mp h
  have hpk := List.find?_some hp
  have hmem := List.mem_of_find?_eq_some hp
  have : p = (k, v) := by
    obtain ⟨p1, p2⟩ := p
    simp only [beq_iff_eq] at hpk
    simp only at hpv
    simp [hpk, hpv]
  exact this ▸ hmem

theorem mget_mset_self {α : Type} (l : List (Nat × α)) (k : Nat) (v : α) :
    mget (mset l k v) k = some v := by
  unfold mget mset
  split
  · rename_i h
    rw [List.any_eq_true] at h
    rw [List.find?_map]
    have hpred : ∀ p : Nat × α,
        ((fun q : Nat × α => q.1 == k) ∘ fun p : Nat × α => if p.1 == k then (k, v) else p) p =
          (p.1 == k) := by
      intro p
      by_cases hk : p.1 = k <;> simp [hk]
    rw [funext hpred]
    obtain ⟨p, hp, hpk⟩ := h
    cases hf : l.find? (fun p : Nat × α => p.1 == k) with
    | none => exact absurd hpk (by simpa using List.find?_eq_none.mp hf p hp)
    | some q =>
      have hq : (q.1 == k) = true := by simpa using List.find?_some hf
      simp only [beq_iff_eq] at hq
      simp [hq]
  · rw [List.find?_append]
    have : l.find? (fun p : Nat × α => p.1 == k) = none := by
      rw [List.find?_eq_none]
      intro p hp
      rename_i h
      simp only [List.any_eq_true, not_exists, not_and] at h
      simpa using h p hp
    simp [this]

theorem mget_mset_ne {α : Type} (l : List (Nat × α)) (k : Nat) (v : α) {j : Nat}
    (hjk : j ≠ k) : mget (mset l k v) j = mget l j := by
  unfold mget mset
  split
  · rw [List.find?_map]
    have hpred : ∀ p : Nat × α,
        ((fun q : Nat × α => q.1 == j) ∘ fun p : Nat × α => if p.1 == k then (k, v) else p) p =
          (p.1 == j) := by
      intro p
      by_cases hk : p.1 = k
      · simp [hk, (by omega : ¬ k = j)]
      · simp [hk]
    rw [funext hpred]
    cases hf : l.find? (fun p : Nat × α => p.1 == j) with
    | none => simp
    | some q =>
      have hq : (q.1 == j) = true := by simpa using List.find?_some hf
      have hqk : ¬ (q.1 = k) := by
        simp only [beq_iff_eq] at hq
        omega
      simp [hqk]
  · rw [List.find?_append]
    cases hf : l.find? (fun p : Nat × α => p.1 == j) with
    | none =>
      have hkj : (k == j) = false := by
        simp only [beq_eq_false_iff_ne, ne_eq]
        omega
      simp [hf, hkj]
    | some q => simp [hf]

theorem mem_mdel {α : Type} {l : List (Nat × α)} {k : Nat} {p : Nat × α} :
    p ∈ mdel l k ↔ p ∈ l ∧ p.1 ≠ k := by
  simp [mdel, List.mem_filter]

theorem mdel_eq_self {α : Type} {l : List (Nat × α)} {k : Nat}
    (h : ∀ p ∈ l, p.1 ≠ k) : mdel l k = l := by
  unfold mdel
  rw [List.filter_eq_self]
  intro p hp
  simpa using h p hp

theorem mget_mdel_self {α : Type} (l : List (Nat × α)) (k : Nat) :
    mget (mdel l k) k = none := by
  unfold mget
  rw [Option.map_eq_none', List.find?_eq_none]
  intro p hp
  have := mem_mdel.mp hp
  simpa using this.2

theorem mem_mvalues {α : Type} {l : List (Nat × α)} {v : α} :
    v ∈ mvalues l ↔ ∃ p ∈ l, p.2 = v := by
  simp [mvalues, List.mem_map]

theorem mem_mvalues_mset_self {α : Type} (l : List (Nat × α)) (k : Nat) (v : α) :
    v ∈ mvalues (mset l k v) :=
  mem_mvalues.mpr ⟨(k, v), mem_mset_self l k v, rfl⟩

theorem foldl_mdel_mem {α β : Type} (f : β → Nat) (L : List β) (l : List (Nat × α))
    (p : Nat × α) :
    p ∈ L.foldl (fun cs c => mdel cs (f c)) l ↔ p ∈ l ∧ ∀ c ∈ L, p.1 ≠ f c := by
  induction L generalizing l with
  | nil => simp
  | cons c L ih =>
    simp only [List.foldl_cons, ih, mem_mdel, List.mem_cons]
    constructor
    · rintro ⟨⟨hp, hne⟩, hall⟩
      exact ⟨hp, by rintro c' (rfl | hc') <;> [exact hne; exact hall c' hc']⟩
    · rintro ⟨hp, hall⟩
      exact ⟨⟨hp, hall c (Or.inl rfl)⟩, fun c' hc' => hall c' (Or.inr hc')⟩

/-! ## Lemmas about the descending date sort -/

instance : IsTotal Memory (fun a b => b.date ≤ a.date) :=
  ⟨fun a b => le_total b.date a.date⟩

instance : IsTrans Memory (fun a b => b.date ≤ a.date) :=
  ⟨fun _ _ _ h1 h2 => le_trans h2 h1⟩

theorem mem_sortByDateDesc {l : List Memory} {m : Memory} :
    m ∈ sortByDateDesc l ↔ m ∈ l :=
  (List.perm_insertionSort _ l).mem_iff

theorem sorted_sortByDateDesc (l : List Memory) :
    List.Sorted (fun a b => b.date ≤ a.date) (sortByDateDesc l) :=
  List.sorted_insertionSort _ l

/-- In a list whose entries have pairwise-distinct keys, two entries with the
same key are the same entry. -/
theorem pairwise_ne_key_eq {α : Type} {l : List (Nat × α)}
    (h : l.Pairwise (fun p q => p.1 ≠ q.1)) {p q : Nat × α}
    (hp : p ∈ l) (hq : q ∈ l) (hk : p.1 = q.1) : p = q := by
  induction l with
  | nil => cases hp
  | cons a t ih =>
    rcases List.pairwise_cons.mp h with ⟨ha, ht⟩
    rcases List.mem_cons.mp hp with rfl | hp2
    · rcases List.mem_cons.mp hq with rfl | hq2
      · rfl
      · exact absurd hk (ha q hq2)
    · rcases List.mem_cons.mp hq with rfl | hq2
      · exact absurd hk.symm (ha p hp2)
      · exact ih ht hp2 hq2

/-! ## Shared facts about the friend operations -/

/-- When any friend record already links the pair in either direction,
`createFriendRequest` throws the duplicate error. -/
theorem createFriendRequest_error_of_exists (s : Store) (u f : Nat) (now : Int)
    (h : ∃ fr ∈ mvalues s.friends,
      (fr.userId = u ∧ fr.friendId = f) ∨ (fr.userId = f ∧ fr.friendId = u)) :
    createFriendRequest s u f now = .error "Friend request already exists" := by
  obtain ⟨fr, hfr, hpair⟩ := h
  unfold createFriendRequest
  rw [if_pos]
  have : fr ∈ (mvalues s.friends).filter (fun g =>
      (g.userId == u && g.friendId == f) || (g.userId == f && g.friendId == u)) := by
    rw [List.mem_filter]
    exact ⟨hfr, by rcases hpair with ⟨h1, h2⟩ | ⟨h1, h2⟩ <;> simp [h1, h2]⟩
  have hlen := List.length_pos.mpr (List.ne_nil_of_mem this)
  omega

/-! ## Concrete stores used to witness the theorems -/

/-- A pending friend request between users 1 and 2. -/
def fr12 : Friend := { id := 1, userId := 1, friendId := 2, status := "pending", createdAt := 0 }

/-- A store holding exactly the friend record `fr12`. -/
def storeWithFriend : Store := { emptyStore with friends := [(1, fr12)], friendIdCounter := 2 }

/-- A public memory owned by user 1. -/
def mem1 : Memory :=
  { id := 1, userId := 1, title := "t", content := "c", images := [], date := 0
    location := none, isPrivate := false, createdAt := 0 }

/-- A comment by user 2 on memory 1. -/
def com1 : Comment := { id := 1, memoryId := 1, userId := 2, content := "hi", createdAt := 0 }

/-- A store holding memory `mem1` and comment `com1`. -/
def storeWithComment : Store :=
  { emptyStore with
    memories := [(1, mem1)], memoryIdCounter := 2
    comments := [(1, com1)], commentIdCounter := 2 }

/-! ## Claim C1 -/

/-- C1: `getAccessibleMemories u` returns exactly the union of `u`'s own
memories and the non-private memories of users linked to `u` by an accepted
friend record (in either direction), sorted newest event date first; in
particular every private memory it returns is owned by `u`. -/
theorem getAccessibleMemories_correct (s : Store) (u : Nat) :
    (∀ m : Memory, m ∈ getAccessibleMemories s u ↔
        m ∈ mvalues s.memories ∧
          (m.userId = u ∨ (m.isPrivate = false ∧ ∃ f ∈ mvalues s.friends,
            f.status = "accepted" ∧
            ((f.userId = u ∧ f.friendId = m.userId) ∨
             (f.friendId = u ∧ f.userId = m.userId))))) ∧
    List.Sorted (fun a b : Memory => b.date ≤ a.date) (getAccessibleMemories s u) ∧
    (∀ m ∈ getAccessibleMemories s u, m.isPrivate = true → m.userId = u) := by
  have hmem : ∀ m : Memory, m ∈ getAccessibleMemories s u ↔
      m ∈ mvalues s.memories ∧
        (m.userId = u ∨ (m.isPrivate = false ∧ ∃ f ∈ mvalues s.friends,
          f.status = "accepted" ∧
          ((f.userId = u ∧ f.friendId = m.userId) ∨
           (f.friendId = u ∧ f.userId = m.userId)))) := by
    intro m
    simp only [getAccessibleMemories, getUserFriends, mem_sortByDateDesc, List.mem_filter]
    refine and_congr_right fun _ => ?_
    simp only [Bool.or_eq_true, Bool.and_eq_true, Bool.not_eq_true', beq_iff_eq,
      List.elem_iff, List.mem_map, List.mem_filter]
    refine or_congr_right (and_congr_right fun _ => ?_)
    constructor
    · rintro ⟨f, ⟨⟨hf, hside⟩, hacc⟩, hid⟩
      refine ⟨f, hf, hacc, ?_⟩
      by_cases hu : f.userId = u
      · rw [if_pos hu] at hid
        exact Or.inl ⟨hu, hid⟩
      · rw [if_neg hu] at hid
        rcases hside with h | h
        · exact absurd h hu
        · exact Or.inr ⟨h, hid⟩
    · rintro ⟨f, hf, hacc, h | h⟩
      · exact ⟨f, ⟨⟨hf, Or.inl h.1⟩, hacc⟩, by rw [if_pos h.1]; exact h.2⟩
      · by_cases hu : f.userId = u
        · exact ⟨f, ⟨⟨hf, Or.inr h.1⟩, hacc⟩, by rw [if_pos hu]; rw [h.1, ← h.2, hu]⟩
        · exact ⟨f, ⟨⟨hf, Or.inr h.1⟩, hacc⟩, by rw [if_neg hu]; exact h.2⟩
  refine ⟨hmem, sorted_sortByDateDesc _, ?_⟩
  intro m hm hp
  rcases ((hmem m).mp hm).2 with h | ⟨hfalse, _⟩
  · exact h
  · rw [hp] at hfalse
    cases hfalse

/-! ## Claim C2 -/

/-- C2: when a friend record already links `(u, f)` in either direction,
`createFriendRequest u f` fails with the Conflict-style duplicate error (the
throw happens before any write, so the store is untouched); otherwise it
appends exactly one new pending `Friend` record and exactly one `Notification`
addressed to `f`, and changes nothing else. -/
theorem createFriendRequest_correct (s : Store) (u f : Nat) (now : Int)
    (hfr : ∀ p ∈ s.friends, p.1 < s.friendIdCounter)
    (hn : ∀ p ∈ s.notifications, p.1 < s.notificationIdCounter) :
    ((∃ fr ∈ mvalues s.friends,
        (fr.userId = u ∧ fr.friendId = f) ∨ (fr.userId = f ∧ fr.friendId = u)) →
      createFriendRequest s u f now = .error "Friend request already exists") ∧
    ((¬ ∃ fr ∈ mvalues s.friends,
        (fr.userId = u ∧ fr.friendId = f) ∨ (fr.userId = f ∧ fr.friendId = u)) →
      createFriendRequest s u f now = .ok
        ({ id := s.friendIdCounter, userId := u, friendId := f, status := "pending",
           createdAt := now },
         { s with
             friends := s.friends ++ [(s.friendIdCounter,
               { id := s.friendIdCounter, userId := u, friendId := f,
                 status := "pending", createdAt := now })]
             friendIdCounter := s.friendIdCounter + 1
             notifications := s.notifications ++ [(s.notificationIdCounter,
               { id := s.notificationIdCounter, userId := f, type := "friend_request",
                 content := "You have a new friend request", read := false,
                 relatedId := some s.friendIdCounter, createdAt := now })]
             notificationIdCounter := s.notificationIdCounter + 1 })) := by
  refine ⟨createFriendRequest_error_of_exists s u f now, fun hno => ?_⟩
  have hfil : (mvalues s.friends).filter (fun g =>
      (g.userId == u && g.friendId == f) || (g.userId == f && g.friendId == u)) = [] := by
    rw [List.filter_eq_nil_iff]
    intro fr hfr2 hb
    exact hno ⟨fr, hfr2, by simpa using hb⟩
  have h1 : mset s.friends s.friendIdCounter
      { id := s.friendIdCounter, userId := u, friendId := f, status := "pending",
        createdAt := now } =
      s.friends ++ [(s.friendIdCounter,
        { id := s.friendIdCounter, userId := u, friendId := f, status := "pending",
          createdAt := now })] :=
    mset_append _ (fun p hp => by have := hfr p hp; omega)
  have h2 : mset s.notifications s.notificationIdCounter
      { id := s.notificationIdCounter, userId := f, type := "friend_request",
        content := "You have a new friend request", read := false,
        relatedId := some s.friendIdCounter, createdAt := now } =
      s.notifications ++ [(s.notificationIdCounter,
        { id := s.notificationIdCounter, userId := f, type := "friend_request",
          content := "You have a new friend request", read := false,
          relatedId := some s.friendIdCounter, createdAt := now })] :=
    mset_append _ (fun p hp => by have := hn p hp; omega)
  unfold createFriendRequest createNotification
  rw [if_neg (by rw [hfil]; simp)]
  simp [h1, h2]

/-- Witness for C2 at concrete inputs: the duplicate branch fires on
`storeWithFriend`. -/
theorem createFriendRequest_correct_witness :
    createFriendRequest storeWithFriend 1 2 0 = .error "Friend request already exists" :=
  (createFriendRequest_correct storeWithFriend 1 2 0 (by decide) (by decide)).1
    ⟨fr12, by decide, by decide⟩

/-! ## Claim C3 -/

/-- C3: `acceptFriendRequest r`, for an existing request `r`, replaces that
record (in place) by the same record with status `"accepted"`, leaves every
other friend record untouched, and appends exactly one notification addressed
to the original requester (`req.userId`). -/
theorem acceptFriendRequest_correct (s : Store) (r : Nat) (now : Int) (req : Friend)
    (hget : getFriendRequest s r = some req)
    (hn : ∀ p ∈ s.notifications, p.1 < s.notificationIdCounter) :
    acceptFriendRequest s r now = .ok ({ req with status := "accepted" },
      { s with
          friends := mset s.friends r { req with status := "accepted" }
          notifications := s.notifications ++ [(s.notificationIdCounter,
            { id := s.notificationIdCounter, userId := req.userId,
              type := "friend_accepted", content := "Your friend request was accepted",
              read := false, relatedId := some r, createdAt := now })]
          notificationIdCounter := s.notificationIdCounter + 1 }) ∧
    mget (mset s.friends r { req with status := "accepted" }) r =
      some { req with status := "accepted" } ∧
    (∀ k, k ≠ r → mget (mset s.friends r { req with status := "accepted" }) k =
      mget s.friends k) := by
  refine ⟨?_, mget_mset_self _ _ _, fun k hk => mget_mset_ne _ _ _ hk⟩
  have h2 : mset s.notifications s.notificationIdCounter
      { id := s.notificationIdCounter, userId := req.userId, type := "friend_accepted",
        content := "Your friend request was accepted", read := false,
        relatedId := some r, createdAt := now } =
      s.notifications ++ [(s.notificationIdCounter,
        { id := s.notificationIdCounter, userId := req.userId, type := "friend_accepted",
          content := "Your friend request was accepted", read := false,
          relatedId := some r, createdAt := now })] :=
    mset_append _ (fun p hp => by have := hn p hp; omega)
  unfold acceptFriendRequest createNotification
  rw [hget]
  simp [h2]

/-- Witness for C3: accepting request 1 in `storeWithFriend`. -/
theorem acceptFriendRequest_correct_witness :
    getFriendRequest storeWithFriend 1 = some fr12 ∧
    mget (mset storeWithFriend.friends 1 { fr12 with status := "accepted" }) 1 =
      some { fr12 with status := "accepted" } :=
  ⟨by decide, (acceptFriendRequest_correct storeWithFriend 1 0 fr12 (by decide) (by decide)).2.1⟩

/-! ## Claim C4 -/

/-- C4: after `deleteMemory m` no comment with `memoryId = m` remains, the
memory itself is gone (`getMemory` finds nothing, so `GET /api/memories/:id`
answers 404), and the comment entries of other memories are exactly preserved.
The two well-formedness hypotheses (every comment entry's value carries its
key as `id`, and comment keys are distinct) hold of every store the program
builds, since comments are keyed by their own generated id. -/
theorem deleteMemory_correct (s : Store) (mId caller : Nat)
    (hids : ∀ p ∈ s.comments, p.2.id = p.1)
    (hnd : s.comments.Pairwise (fun p q => p.1 ≠ q.1)) :
    getMemory (deleteMemory s mId) mId = none ∧
    (getMemoryRoute (deleteMemory s mId) caller mId).1 = 404 ∧
    (∀ c ∈ mvalues (deleteMemory s mId).comments, c.memoryId ≠ mId) ∧
    (∀ p : Nat × Comment, p ∈ (deleteMemory s mId).comments ↔
      p ∈ s.comments ∧ p.2.memoryId ≠ mId) := by
  have hgone : getMemory (deleteMemory s mId) mId = none := by
    unfold deleteMemory getMemory
    exact mget_mdel_self _ _
  have hmember : ∀ p : Nat × Comment, p ∈ (deleteMemory s mId).comments ↔
      p ∈ s.comments ∧ p.2.memoryId ≠ mId := by
    intro p
    show p ∈ ((mvalues s.comments).filter (fun c => c.memoryId == mId)).foldl
      (fun cs c => mdel cs c.id) s.comments ↔ _
    rw [foldl_mdel_mem]
    constructor
    · rintro ⟨hp, hall⟩
      refine ⟨hp, fun hmem => ?_⟩
      have hc : p.2 ∈ (mvalues s.comments).filter (fun c => c.memoryId == mId) := by
        rw [List.mem_filter]
        exact ⟨mem_mvalues.mpr ⟨p, hp, rfl⟩, by simp [hmem]⟩
      exact (hall p.2 hc) (hids p hp).symm
    · rintro ⟨hp, hne⟩
      refine ⟨hp, fun c hc heq => ?_⟩
      rw [List.mem_filter] at hc
      obtain ⟨hcv, hcmem⟩ := hc
      simp only [beq_iff_eq] at hcmem
      obtain ⟨q, hq, hq2⟩ := mem_mvalues.mp hcv
      have hcid : c.id = q.1 := by rw [← hq2]; exact hids q hq
      have hpq : p = q := pairwise_ne_key_eq hnd hp hq (by rw [heq, hcid])
      rw [← hq2] at hcmem
      rw [hpq] at hne
      exact hne hcmem
  refine ⟨hgone, ?_, ?_, hmember⟩
  · unfold getMemoryRoute
    rw [hgone]
  · intro c hc
    obtain ⟨p, hp, hp2⟩ := mem_mvalues.mp hc
    rw [← hp2]
    exact ((hmember p).mp hp).2

/-- Witness for C4: deleting memory 1 of `storeWithComment` removes its
comment. -/
theorem deleteMemory_correct_witness :
    getMemory (deleteMemory storeWithComment 1) 1 = none ∧
    (getMemoryRoute (deleteMemory storeWithComment 1) 7 1).1 = 404 :=
  ⟨(deleteMemory_correct storeWithComment 1 7 (by decide) (by decide)).1,
   (deleteMemory_correct storeWithComment 1 7 (by decide) (by decide)).2.1⟩

/-! ## Claim C5 -/

/-- C5 counterexample: the claim says every mutating delete operation on a
missing id "fails fast with a NotFound-style error".  In the source none of
the delete operations has any failure path: on a missing id they complete
silently and return the store unchanged, as this concrete evaluation shows
(the update operations are the ones that throw NotFound; the 404 for deletes
is produced by the HTTP routes, which look the resource up first). -/
theorem delete_missing_id_counterexample :
    getMemory emptyStore 1 = none ∧ deleteMemory emptyStore 1 = emptyStore ∧
    getGroup emptyStore 1 = none ∧ deleteGroup emptyStore 1 = emptyStore ∧
    getComment emptyStore 1 = none ∧ deleteComment emptyStore 1 = emptyStore ∧
    getGroupMembership emptyStore 1 1 = none ∧ removeGroupMember emptyStore 1 1 = emptyStore := by
  decide

/-- C5 (amended): on a missing id, every update-style Data Access Layer
mutation (`updateUser`, `updateMemory`, `updateGroup`, `updateGroupMember`,
`markNotificationAsRead`) fails fast with its NotFound-style error, and every
delete-style mutation (`deleteMemory`, `deleteGroup`, `deleteComment`,
`removeGroupMember`) succeeds silently, leaving the store unchanged (for
`deleteMemory` / `deleteGroup` provided no orphaned dependent rows reference
the missing id, since the cascade always runs). -/
theorem missing_id_mutation_behavior (s : Store) (id gid uid : Nat)
    (up : UserPatch) (mp : MemoryPatch) (gp : GroupPatch) (role : String) :
    (getUser s id = none → updateUser s id up = .error "User not found") ∧
    (getMemory s id = none → updateMemory s id mp = .error "Memory not found") ∧
    (getGroup s id = none → updateGroup s id gp = .error "Group not found") ∧
    (getGroupMembership s gid uid = none →
      updateGroupMember s gid uid role = .error "Group membership not found") ∧
    (getNotification s id = none →
      markNotificationAsRead s id = .error "Notification not found") ∧
    (getComment s id = none → deleteComment s id = s) ∧
    (getGroupMembership s gid uid = none → removeGroupMember s gid uid = s) ∧
    (getMemory s id = none → (∀ c ∈ mvalues s.comments, c.memoryId ≠ id) →
      deleteMemory s id = s) ∧
    (getGroup s id = none → (∀ m ∈ mvalues s.groupMembers, m.groupId ≠ id) →
      deleteGroup s id = s) := by
  refine ⟨?_, ?_, ?_, ?_, ?_, ?_, ?_, ?_, ?_⟩
  · intro h; unfold updateUser; rw [h]
  · intro h; unfold updateMemory; rw [h]
  · intro h; unfold updateGroup; rw [h]
  · intro h; unfold updateGroupMember; rw [h]
  · intro h; unfold markNotificationAsRead; rw [h]
  · intro h
    unfold deleteComment
    rw [mdel_eq_self (mget_eq_none_iff.mp h)]
  · intro h; unfold removeGroupMember; rw [h]
  · intro h hc
    unfold deleteMemory
    have hfil : (mvalues s.comments).filter (fun c => c.memoryId == id) = [] := by
      rw [List.filter_eq_nil_iff]
      intro c hcv
      simpa using hc c hcv
    rw [hfil, mdel_eq_self (mget_eq_none_iff.mp h)]
    rfl
  · intro h hm
    unfold deleteGroup
    have hfil : (mvalues s.groupMembers).filter (fun m => m.groupId == id) = [] := by
      rw [List.filter_eq_nil_iff]
      intro m hmv
      simpa using hm m hmv
    rw [hfil, mdel_eq_self (mget_eq_none_iff.mp h)]
    rfl

/-- Witness for C5 (amended) at concrete inputs: an update fails with
NotFound, a delete silently no-ops. -/
theorem missing_id_mutation_behavior_witness :
    updateUser emptyStore 1 {} = .error "User not found" ∧
    deleteMemory emptyStore 1 = emptyStore :=
  ⟨(missing_id_mutation_behavior emptyStore 1 1 1 {} {} {} "member").1 (by decide),
   (missing_id_mutation_behavior emptyStore 1 1 1 {} {} {} "member").2.2.2.2.2.2.2.1
     (by decide) (by decide)⟩

/-! ## Claim C6 -/

/-- C6: `POST /api/groups` (group creation) unconditionally leaves the caller
holding an admin `GroupMember` record for the freshly created group. -/
theorem createGroupRoute_correct (s : Store) (d : InsertGroup) (now : Int) :
    ∃ gm ∈ mvalues (createGroupRoute s d now).2.groupMembers,
      gm.groupId = (createGroupRoute s d now).1.id ∧
      gm.userId = d.createdBy ∧ gm.role = "admin" := by
  refine ⟨{ id := s.groupMemberIdCounter, groupId := s.groupIdCounter,
            userId := d.createdBy, role := "admin", joinedAt := now }, ?_, rfl, rfl, rfl⟩
  show _ ∈ mvalues (mset s.groupMembers s.groupMemberIdCounter _)
  exact mem_mvalues_mset_self _ _ _

/-! ## Claims C7 and C8: invariants of reachable stores -/

/-- No two user entries share a username. -/
def UsernamesUnique (s : Store) : Prop :=
  s.users.Pairwise (fun p q => p.2.username ≠ q.2.username)

/-- At most one `GroupMember` row per `(groupId, userId)` pair. -/
def MembersUniquePerPair (s : Store) : Prop :=
  s.groupMembers.Pairwise (fun p q => ¬(p.2.groupId = q.2.groupId ∧ p.2.userId = q.2.userId))

/-- The inductive invariant carried through every reachable store: group keys
stay below the group id counter, member keys below the member id counter,
every membership row references a stored group, and memberships are unique
per `(group, user)` pair. -/
def GroupInv (s : Store) : Prop :=
  (∀ p ∈ s.groups, p.1 < s.groupIdCounter) ∧
  (∀ q ∈ s.groupMembers, q.1 < s.groupMemberIdCounter) ∧
  (∀ q ∈ s.groupMembers, ∃ p ∈ s.groups, q.2.groupId = p.1) ∧
  MembersUniquePerPair s

theorem mem_mset_cases {α : Type} {l : List (Nat × α)} {k : Nat} {v : α} {p : Nat × α}
    (h : p ∈ mset l k v) : p ∈ l ∨ p = (k, v) := by
  unfold mset at h
  split at h
  · rw [List.mem_map] at h
    obtain ⟨q, hq, hq2⟩ := h
    by_cases hk : q.1 = k
    · right; rw [← hq2]; simp [hk]
    · left; rw [← hq2]; simp [hk]; exact hq
  · rw [List.mem_append] at h
    rcases h with h | h
    · exact Or.inl h
    · right; simpa using h

theorem exists_key_mset {α : Type} (l : List (Nat × α)) (k : Nat) (v : α) {j : Nat}
    (h : ∃ p ∈ l, j = p.1) : ∃ p ∈ mset l k v, j = p.1 := by
  obtain ⟨p, hp, hpj⟩ := h
  by_cases hk : p.1 = k
  · exact ⟨(k, v), mem_mset_self l k v, by simp [hpj, hk]⟩
  · unfold mset
    split
    · exact ⟨p, List.mem_map.mpr ⟨p, hp, by simp [hk]⟩, hpj⟩
    · exact ⟨p, List.mem_append_left _ hp, hpj⟩

/-- Group-related state is untouched, so `GroupInv` carries over. -/
theorem groupInv_of_eq {s s2 : Store} (hg : s2.groups = s.groups)
    (hm : s2.groupMembers = s.groupMembers) (hgc : s2.groupIdCounter = s.groupIdCounter)
    (hmc : s2.groupMemberIdCounter = s.groupMemberIdCounter)
    (h : GroupInv s) : GroupInv s2 := by
  unfold GroupInv MembersUniquePerPair at h ⊢
  rw [hg, hm, hgc, hmc]
  exact h

theorem updateUser_ok_groups {s : Store} {caller : Nat} {p : UserPatch} {u : User} {s2 : Store}
    (h : updateUser s caller p = .ok (u, s2)) :
    s2.groups = s.groups ∧ s2.groupMembers = s.groupMembers ∧
    s2.groupIdCounter = s.groupIdCounter ∧ s2.groupMemberIdCounter = s.groupMemberIdCounter := by
  unfold updateUser at h
  cases hg : getUser s caller with
  | none => rw [hg] at h; cases h
  | some user =>
    rw [hg] at h
    simp only [Except.ok.injEq, Prod.mk.injEq] at h
    obtain ⟨-, rfl⟩ := h
    exact ⟨rfl, rfl, rfl, rfl⟩

theorem updateMemory_ok_groups {s : Store} {mid : Nat} {p : MemoryPatch} {m : Memory} {s2 : Store}
    (h : updateMemory s mid p = .ok (m, s2)) :
    s2.groups = s.groups ∧ s2.groupMembers = s.groupMembers ∧
    s2.groupIdCounter = s.groupIdCounter ∧ s2.groupMemberIdCounter = s.groupMemberIdCounter := by
  unfold updateMemory at h
  cases hg : getMemory s mid with
  | none => rw [hg] at h; cases h
  | some mem =>
    rw [hg] at h
    simp only [Except.ok.injEq, Prod.mk.injEq] at h
    obtain ⟨-, rfl⟩ := h
    exact ⟨rfl, rfl, rfl, rfl⟩

theorem createFriendRequest_ok_groups {s : Store} {u f : Nat} {now : Int} {fr : Friend}
    {s2 : Store} (h : createFriendRequest s u f now = .ok (fr, s2)) :
    s2.groups = s.groups ∧ s2.groupMembers = s.groupMembers ∧
    s2.groupIdCounter = s.groupIdCounter ∧ s2.groupMemberIdCounter = s.groupMemberIdCounter := by
  unfold createFriendRequest createNotification at h
  by_cases hc : ((mvalues s.friends).filter (fun g =>
      (g.userId == u && g.friendId == f) || (g.userId == f && g.friendId == u))).length > 0
  · rw [if_pos hc] at h
    exact Except.noConfusion h
  · simp only [if_neg hc, Except.ok.injEq, Prod.mk.injEq] at h
    obtain ⟨-, rfl⟩ := h
    exact ⟨rfl, rfl, rfl, rfl⟩

theorem acceptFriendRequest_ok_groups {s : Store} {r : Nat} {now : Int} {fr : Friend}
    {s2 : Store} (h : acceptFriendRequest s r now = .ok (fr, s2)) :
    s2.groups = s.groups ∧ s2.groupMembers = s.groupMembers ∧
    s2.groupIdCounter = s.groupIdCounter ∧ s2.groupMemberIdCounter = s.groupMemberIdCounter := by
  unfold acceptFriendRequest createNotification at h
  cases hg : getFriendRequest s r with
  | none => rw [hg] at h; cases h
  | some req =>
    rw [hg] at h
    simp only [Except.ok.injEq, Prod.mk.injEq] at h
    obtain ⟨-, rfl⟩ := h
    exact ⟨rfl, rfl, rfl, rfl⟩

theorem rejectFriendRequest_ok_groups {s : Store} {r : Nat} {s2 : Store}
    (h : rejectFriendRequest s r = .ok s2) :
    s2.groups = s.groups ∧ s2.groupMembers = s.groupMembers ∧
    s2.groupIdCounter = s.groupIdCounter ∧ s2.groupMemberIdCounter = s.groupMemberIdCounter := by
  unfold rejectFriendRequest at h
  cases hg : getFriendRequest s r with
  | none => rw [hg] at h; cases h
  | some req =>
    rw [hg] at h
    simp only [Except.ok.injEq] at h
    rw [← h]
    exact ⟨rfl, rfl, rfl, rfl⟩

theorem markNotificationAsRead_ok_groups {s : Store} {nid : Nat} {n : Notification}
    {s2 : Store} (h : markNotificationAsRead s nid = .ok (n, s2)) :
    s2.groups = s.groups ∧ s2.groupMembers = s.groupMembers ∧
    s2.groupIdCounter = s.groupIdCounter ∧ s2.groupMemberIdCounter = s.groupMemberIdCounter := by
  unfold markNotificationAsRead at h
  cases hg : getNotification s nid with
  | none => rw [hg] at h; cases h
  | some q =>
    rw [hg] at h
    simp only [Except.ok.injEq, Prod.mk.injEq] at h
    obtain ⟨-, rfl⟩ := h
    exact ⟨rfl, rfl, rfl, rfl⟩

theorem createComment_groups (s : Store) (d : InsertComment) (now : Int) :
    (createComment s d now).2.groups = s.groups ∧
    (createComment s d now).2.groupMembers = s.groupMembers ∧
    (createComment s d now).2.groupIdCounter = s.groupIdCounter ∧
    (createComment s d now).2.groupMemberIdCounter = s.groupMemberIdCounter := by
  unfold createComment createNotification
  cases getMemory s d.memoryId with
  | none => exact ⟨rfl, rfl, rfl, rfl⟩
  | some mem =>
    by_cases hne : mem.userId ≠ d.userId
    · simp [if_pos hne]
    · simp [if_neg hne]

/-- `removeGroupMember` preserves the invariant (it only filters member rows). -/
theorem groupInv_removeGroupMember (s : Store) (gid uid : Nat) (h : GroupInv s) :
    GroupInv (removeGroupMember s gid uid) := by
  obtain ⟨h1, h2, h3, h4⟩ := h
  unfold removeGroupMember
  cases getGroupMembership s gid uid with
  | none => exact ⟨h1, h2, h3, h4⟩
  | some m =>
    refine ⟨h1, ?_, ?_, ?_⟩
    · intro q hq
      exact h2 q (mem_mdel.mp hq).1
    · intro q hq
      exact h3 q (mem_mdel.mp hq).1
    · exact List.Pairwise.sublist (List.filter_sublist _) h4

/-- `addGroupMember` via the join route preserves the invariant: the join
handler only calls it when the group exists and no membership for the pair
does. -/
theorem groupInv_joinGroup (s : Store) (gid caller : Nat) (now : Int)
    (hgroup : (getGroup s gid).isSome)
    (hnot : getGroupMembership s gid caller = none)
    (h : GroupInv s) :
    GroupInv (addGroupMember s { groupId := gid, userId := caller, role := "member" } now).2 := by
  obtain ⟨h1, h2, h3, h4⟩ := h
  have happend : mset s.groupMembers s.groupMemberIdCounter
      { id := s.groupMemberIdCounter, groupId := gid, userId := caller, role := "member",
        joinedAt := now } =
      s.groupMembers ++ [(s.groupMemberIdCounter,
        { id := s.groupMemberIdCounter, groupId := gid, userId := caller, role := "member",
          joinedAt := now })] :=
    mset_append _ (fun q hq => by have := h2 q hq; omega)
  have hnomem : ∀ q ∈ s.groupMembers, ¬(q.2.groupId = gid ∧ q.2.userId = caller) := by
    intro q hq hpair
    unfold getGroupMembership at hnot
    rw [List.find?_eq_none] at hnot
    exact hnot q.2 (mem_mvalues.mpr ⟨q, hq, rfl⟩) (by simp [hpair.1, hpair.2])
  show GroupInv { s with
    groupMembers := mset s.groupMembers s.groupMemberIdCounter
      { id := s.groupMemberIdCounter, groupId := gid, userId := caller, role := "member",
        joinedAt := now }
    groupMemberIdCounter := s.groupMemberIdCounter + 1 }
  rw [happend]
  refine ⟨?_, ?_, ?_, ?_⟩
  · show ∀ p ∈ s.groups, p.1 < s.groupIdCounter
    exact h1
  · show ∀ q ∈ s.groupMembers ++ [(s.groupMemberIdCounter,
      { id := s.groupMemberIdCounter, groupId := gid, userId := caller, role := "member",
        joinedAt := now })], q.1 < s.groupMemberIdCounter + 1
    intro q hq
    rcases List.mem_append.mp hq with hq | hq
    · have := h2 q hq; omega
    · simp only [List.mem_singleton] at hq
      rw [hq]; omega
  · show ∀ q ∈ s.groupMembers ++ [(s.groupMemberIdCounter,
      { id := s.groupMemberIdCounter, groupId := gid, userId := caller, role := "member",
        joinedAt := now })], ∃ p ∈ s.groups, q.2.groupId = p.1
    intro q hq
    rcases List.mem_append.mp hq with hq | hq
    · exact h3 q hq
    · simp only [List.mem_singleton] at hq
      obtain ⟨g, hg⟩ := Option.isSome_iff_exists.mp hgroup
      exact ⟨(gid, g), mem_of_mget_eq_some hg, by rw [hq]⟩
  · show List.Pairwise (fun p q : Nat × GroupMember =>
        ¬(p.2.groupId = q.2.groupId ∧ p.2.userId = q.2.userId))
      (s.groupMembers ++ [(s.groupMemberIdCounter,
        { id := s.groupMemberIdCounter, groupId := gid, userId := caller, role := "member",
          joinedAt := now })])
    rw [List.pairwise_append]
    refine ⟨h4, List.pairwise_singleton _ _, ?_⟩
    intro q hq r hr
    simp only [List.mem_singleton] at hr
    rw [hr]
    intro hpair
    exact hnomem q hq ⟨hpair.1, hpair.2⟩

/-- Group creation (with the unconditional admin membership) preserves the
invariant: the new group id is fresh, so no existing membership can collide
with the creator's new admin row. -/
theorem groupInv_createGroupRoute (s : Store) (d : InsertGroup) (now : Int)
    (h : GroupInv s) : GroupInv (createGroupRoute s d now).2 := by
  obtain ⟨h1, h2, h3, h4⟩ := h
  have happend : mset s.groupMembers s.groupMemberIdCounter
      { id := s.groupMemberIdCounter, groupId := s.groupIdCounter, userId := d.createdBy,
        role := "admin", joinedAt := now } =
      s.groupMembers ++ [(s.groupMemberIdCounter,
        { id := s.groupMemberIdCounter, groupId := s.groupIdCounter, userId := d.createdBy,
          role := "admin", joinedAt := now })] :=
    mset_append _ (fun q hq => by have := h2 q hq; omega)
  show GroupInv { s with
    groups := mset s.groups s.groupIdCounter
      { id := s.groupIdCounter, name := d.name, description := d.description,
        createdBy := d.createdBy, avatar := d.avatar, createdAt := now }
    groupIdCounter := s.groupIdCounter + 1
    groupMembers := mset s.groupMembers s.groupMemberIdCounter
      { id := s.groupMemberIdCounter, groupId := s.groupIdCounter, userId := d.createdBy,
        role := "admin", joinedAt := now }
    groupMemberIdCounter := s.groupMemberIdCounter + 1 }
  rw [happend]
  refine ⟨?_, ?_, ?_, ?_⟩
  · show ∀ p ∈ mset s.groups s.groupIdCounter
      { id := s.groupIdCounter, name := d.name, description := d.description,
        createdBy := d.createdBy, avatar := d.avatar, createdAt := now },
      p.1 < s.groupIdCounter + 1
    intro p hp
    rcases mem_mset_cases hp with hp | hp
    · have := h1 p hp; omega
    · rw [hp]; omega
  · show ∀ q ∈ s.groupMembers ++ [(s.groupMemberIdCounter,
      { id := s.groupMemberIdCounter, groupId := s.groupIdCounter, userId := d.createdBy,
        role := "admin", joinedAt := now })], q.1 < s.groupMemberIdCounter + 1
    intro q hq
    rcases List.mem_append.mp hq with hq | hq
    · have := h2 q hq; omega
    · simp only [List.mem_singleton] at hq
      rw [hq]; omega
  · show ∀ q ∈ s.groupMembers ++ [(s.groupMemberIdCounter,
      { id := s.groupMemberIdCounter, groupId := s.groupIdCounter, userId := d.createdBy,
        role := "admin", joinedAt := now })],
      ∃ p ∈ mset s.groups s.groupIdCounter
        { id := s.groupIdCounter, name := d.name, description := d.description,
          createdBy := d.createdBy, avatar := d.avatar, createdAt := now }, q.2.groupId = p.1
    intro q hq
    rcases List.mem_append.mp hq with hq | hq
    · exact exists_key_mset _ _ _ (h3 q hq)
    · simp only [List.mem_singleton] at hq
      refine ⟨(s.groupIdCounter, _), mem_mset_self _ _ _, by rw [hq]⟩
  · show List.Pairwise (fun p q : Nat × GroupMember =>
        ¬(p.2.groupId = q.2.groupId ∧ p.2.userId = q.2.userId))
      (s.groupMembers ++ [(s.groupMemberIdCounter,
        { id := s.groupMemberIdCounter, groupId := s.groupIdCounter, userId := d.createdBy,
          role := "admin", joinedAt := now })])
    rw [List.pairwise_append]
    refine ⟨h4, List.pairwise_singleton _ _, ?_⟩
    intro q hq r hr
    simp only [List.mem_singleton] at hr
    rw [hr]
    intro hpair
    obtain ⟨p, hp, hpid⟩ := h3 q hq
    have hlt := h1 p hp
    have hq2 : q.2.groupId < s.groupIdCounter := by omega
    rw [hpair.1] at hq2
    simp at hq2

/-- `updateGroup` only replaces a group record in place (its key set is
unchanged), so the invariant carries over. -/
theorem groupInv_updateGroup {s : Store} {gid : Nat} {p : GroupPatch} {g : Group} {s2 : Store}
    (h : updateGroup s gid p = .ok (g, s2)) (hi : GroupInv s) : GroupInv s2 := by
  obtain ⟨h1, h2, h3, h4⟩ := hi
  unfold updateGroup at h
  cases hg : getGroup s gid with
  | none => rw [hg] at h; cases h
  | some g0 =>
    rw [hg] at h
    simp only [Except.ok.injEq, Prod.mk.injEq] at h
    obtain ⟨-, rfl⟩ := h
    refine ⟨?_, h2, ?_, h4⟩
    · intro q hq
      rcases mem_mset_cases hq with hq | hq
      · exact h1 q hq
      · rw [hq]
        have := h1 (gid, g0) (mem_of_mget_eq_some hg)
        simpa using this
    · intro q hq
      exact exists_key_mset _ _ _ (h3 q hq)

/-- The group-membership invariant holds in every reachable store. -/
theorem groupInv_reachable {s : Store} (h : Reachable s) : GroupInv s := by
  induction h with
  | init =>
    refine ⟨?_, ?_, ?_, ?_⟩ <;> simp [emptyStore, MembersUniquePerPair]
  | step hr hstep ih =>
    rename_i s0 s1
    cases hstep with
    | register d now hname => exact groupInv_of_eq rfl rfl rfl rfl ih
    | updateUserR caller p u s2 h =>
      obtain ⟨e1, e2, e3, e4⟩ := updateUser_ok_groups h
      exact groupInv_of_eq e1 e2 e3 e4 ih
    | createMemoryR d now hauth => exact groupInv_of_eq rfl rfl rfl rfl ih
    | updateMemoryR caller mid p mem m s2 hget hown h =>
      obtain ⟨e1, e2, e3, e4⟩ := updateMemory_ok_groups h
      exact groupInv_of_eq e1 e2 e3 e4 ih
    | deleteMemoryR caller mid mem hget hown => exact groupInv_of_eq rfl rfl rfl rfl ih
    | friendRequestR caller friendId now fr s2 hself hfriend hauth h =>
      obtain ⟨e1, e2, e3, e4⟩ := createFriendRequest_ok_groups h
      exact groupInv_of_eq e1 e2 e3 e4 ih
    | acceptFriendR caller rid now req fr s2 hget hfor h =>
      obtain ⟨e1, e2, e3, e4⟩ := acceptFriendRequest_ok_groups h
      exact groupInv_of_eq e1 e2 e3 e4 ih
    | rejectFriendR caller rid req s2 hget hfor h =>
      obtain ⟨e1, e2, e3, e4⟩ := rejectFriendRequest_ok_groups h
      exact groupInv_of_eq e1 e2 e3 e4 ih
    | removeFriendR caller friendId hauth => exact groupInv_of_eq rfl rfl rfl rfl ih
    | createGroupR d now hauth => exact groupInv_createGroupRoute s0 d now ih
    | updateGroupR caller gid p m g s2 hmem hrole h => exact groupInv_updateGroup h ih
    | joinGroupR caller gid now hgroup hnot hauth =>
      exact groupInv_joinGroup s0 gid caller now hgroup hnot ih
    | leaveGroupR caller gid hmem => exact groupInv_removeGroupMember s0 gid caller ih
    | removeMemberR caller gid uid m hmem hrole => exact groupInv_removeGroupMember s0 gid uid ih
    | markReadR caller nid n n2 s2 hget hown h =>
      obtain ⟨e1, e2, e3, e4⟩ := markNotificationAsRead_ok_groups h
      exact groupInv_of_eq e1 e2 e3 e4 ih
    | createCommentR d now hauth =>
      obtain ⟨e1, e2, e3, e4⟩ := createComment_groups s0 d now
      exact groupInv_of_eq e1 e2 e3 e4 ih
    | deleteCommentR caller cid c hget hown => exact groupInv_of_eq rfl rfl rfl rfl ih

/-! ## Claim C8 -/

/-- C8: in every reachable store there is at most one `GroupMember` row per
`(groupId, userId)` pair — group creation adds the admin row for a fresh group
id, and the join route refuses a second membership for an existing pair. -/
theorem groupMember_unique_reachable (s : Store) (h : Reachable s) :
    MembersUniquePerPair s :=
  (groupInv_reachable h).2.2.2

/-- Registration input for user "alice". -/
def insAlice : InsertUser :=
  { username := "alice", password := "pw", displayName := none, bio := none, avatar := none }

/-- Registration input for user "bob". -/
def insBob : InsertUser :=
  { username := "bob", password := "pw", displayName := none, bio := none, avatar := none }

/-- The user record created for "alice". -/
def aliceUser : User :=
  { id := 1, username := "alice", password := "pw", displayName := none, bio := none,
    avatar := none, createdAt := 0 }

/-- User 2 after its username has been overwritten to "alice". -/
def bobAliased : User :=
  { id := 2, username := "alice", password := "pw", displayName := none, bio := none,
    avatar := none, createdAt := 0 }

/-- The store after registering "alice". -/
def dupStep1 : Store := (createUser emptyStore insAlice 0).2

/-- The store after registering "alice" and "bob". -/
def dupStep2 : Store := (createUser dupStep1 insBob 0).2

/-- A `PUT /api/user` body that renames the caller to "alice". -/
def dupPatch : UserPatch := { username := some "alice" }

/-- The store after user 2 renames themselves to "alice". -/
def dupStore : Store :=
  match updateUser dupStep2 2 dupPatch with
  | .ok p => p.2
  | .error _ => emptyStore

/-- A group-creation input by user 1. -/
def insGroupG : InsertGroup :=
  { name := "g", description := none, createdBy := 1, avatar := none }

/-- A reachable store holding one group with its admin membership. -/
def groupStore : Store := (createGroupRoute dupStep1 insGroupG 0).2

/-- Witness for C8: the invariant at a concrete reachable store holding one
group and one membership row. -/
theorem groupMember_unique_reachable_witness : MembersUniquePerPair groupStore :=
  groupMember_unique_reachable groupStore
    (Reachable.step
      (Reachable.step Reachable.init (Step.register emptyStore insAlice 0 (by decide)))
      (Step.createGroupR dupStep1 insGroupG 0 (by decide)))

/-! ## Claim C7 -/

/-- C7 counterexample: the claim concludes that no reachable store contains
two distinct users with the same username.  But `PUT /api/user` passes the raw
request body to `updateUser`, whose shallow merge overwrites `username`
without any uniqueness check, so this route chain — register "alice",
register "bob", then user 2 renames themselves "alice" — reaches a store
with two distinct users both named "alice". -/
theorem username_uniqueness_counterexample :
    Reachable dupStore ∧ (1, aliceUser) ∈ dupStore.users ∧ (2, bobAliased) ∈ dupStore.users ∧
    (1, aliceUser) ≠ ((2, bobAliased) : Nat × User) ∧
    aliceUser.username = bobAliased.username := by
  refine ⟨?_, by decide, by decide, by decide, by decide⟩
  have h1 : Step emptyStore dupStep1 := Step.register emptyStore insAlice 0 (by decide)
  have h2 : Step dupStep1 dupStep2 := Step.register dupStep1 insBob 0 (by decide)
  have h3 : Step dupStep2 dupStore :=
    Step.updateUserR dupStep2 2 dupPatch bobAliased dupStore (by rfl)
  exact Reachable.step (Reachable.step (Reachable.step Reachable.init h1) h2) h3

/-- C7 (amended): username uniqueness is enforced at creation — registering a
username that already exists fails with a Conflict-style error, and
registration preserves uniqueness — but it is only a creation-time check:
`updateUser` can still break the invariant (see the counterexample), so
uniqueness holds of stores reachable by registrations alone, not of every
reachable store. -/
theorem username_unique_at_creation (s : Store) (d : InsertUser) (now : Int)
    (hctr : ∀ p ∈ s.users, p.1 < s.userIdCounter) :
    ((∃ u ∈ mvalues s.users, u.username = d.username) →
      registerUser s d now = .error "Username already exists") ∧
    (UsernamesUnique s →
      ∀ u s2, registerUser s d now = .ok (u, s2) → UsernamesUnique s2) := by
  constructor
  · rintro ⟨u, hu, hname⟩
    unfold registerUser
    cases hg : getUserByUsername s d.username with
    | none =>
      exfalso
      unfold getUserByUsername at hg
      rw [List.find?_eq_none] at hg
      exact hg u hu (by simp [hname])
    | some v => rfl
  · intro huniq u s2 hok
    unfold registerUser at hok
    cases hg : getUserByUsername s d.username with
    | some v => rw [hg] at hok; exact Except.noConfusion hok
    | none =>
      rw [hg] at hok
      simp only [Except.ok.injEq, Prod.mk.injEq] at hok
      obtain ⟨-, rfl⟩ := hok
      unfold getUserByUsername at hg
      rw [List.find?_eq_none] at hg
      show List.Pairwise (fun p q : Nat × User => p.2.username ≠ q.2.username)
        (mset s.users s.userIdCounter
          { id := s.userIdCounter, username := d.username, password := d.password,
            displayName := d.displayName, bio := d.bio, avatar := d.avatar, createdAt := now })
      rw [mset_append _ (fun p hp => by have := hctr p hp; omega)]
      rw [List.pairwise_append]
      refine ⟨huniq, List.pairwise_singleton _ _, ?_⟩
      intro p hp q hq
      simp only [List.mem_singleton] at hq
      rw [hq]
      show p.2.username ≠ d.username
      intro heq
      exact hg p.2 (mem_mvalues.mpr ⟨p, hp, rfl⟩) (by simp [heq])

/-- Witness for C7 (amended): registering "alice" a second time fails. -/
theorem username_unique_at_creation_witness :
    registerUser dupStep1 insAlice 0 = .error "Username already exists" :=
  (username_unique_at_creation dupStep1 insAlice 0 (by decide)).1
    ⟨aliceUser, by decide, by decide⟩

/-! ## Claim C10 -/

/-- The store after a friend request `r` (with record `req`) has been
rejected: the record is kept, with status `"rejected"`. -/
def rejectedStore (s : Store) (r : Nat) (req : Friend) : Store :=
  { s with friends := mset s.friends r { req with status := "rejected" } }

/-- C10: rejecting request `r` keeps the Friend record in the store with
status `"rejected"` (nothing is deleted and no notification is created), so a
later `createFriendRequest` between the pair, in either direction, fails with
the duplicate-request error; `removeFriend` deletes every record between the
pair, lifting that block. -/
theorem rejectFriendRequest_correct (s : Store) (r : Nat) (req : Friend) (now : Int)
    (hget : getFriendRequest s r = some req)
    (hids : ∀ p ∈ s.friends, p.2.id = p.1) :
    rejectFriendRequest s r = .ok (rejectedStore s r req) ∧
    getFriendRequest (rejectedStore s r req) r = some { req with status := "rejected" } ∧
    (rejectedStore s r req).notifications = s.notifications ∧
    createFriendRequest (rejectedStore s r req) req.userId req.friendId now =
      .error "Friend request already exists" ∧
    createFriendRequest (rejectedStore s r req) req.friendId req.userId now =
      .error "Friend request already exists" ∧
    (∀ fr ∈ mvalues (removeFriend (rejectedStore s r req) req.userId req.friendId).friends,
      ¬((fr.userId = req.userId ∧ fr.friendId = req.friendId) ∨
        (fr.userId = req.friendId ∧ fr.friendId = req.userId))) := by
  have hrec : ({ req with status := "rejected" } : Friend) ∈
      mvalues (rejectedStore s r req).friends :=
    mem_mvalues_mset_self _ _ _
  have hids2 : ∀ p ∈ (rejectedStore s r req).friends, p.2.id = p.1 := by
    intro p hp
    rcases mem_mset_cases hp with hp | hp
    · exact hids p hp
    · rw [hp]
      show req.id = r
      exact hids (r, req) (mem_of_mget_eq_some hget)
  refine ⟨?_, mget_mset_self _ _ _, rfl, ?_, ?_, ?_⟩
  · unfold rejectFriendRequest
    rw [hget]
    rfl
  · exact createFriendRequest_error_of_exists _ _ _ _
      ⟨{ req with status := "rejected" }, hrec, Or.inl ⟨rfl, rfl⟩⟩
  · exact createFriendRequest_error_of_exists _ _ _ _
      ⟨{ req with status := "rejected" }, hrec, Or.inr ⟨rfl, rfl⟩⟩
  · intro fr hfr hpair
    have hfr2 : fr ∈ mvalues
        (((mvalues (rejectedStore s r req).friends).filter (fun g =>
            (g.userId == req.userId && g.friendId == req.friendId) ||
            (g.userId == req.friendId && g.friendId == req.userId))).foldl
          (fun fs f => mdel fs f.id) (rejectedStore s r req).friends) := hfr
    obtain ⟨p, hp, hp2⟩ := mem_mvalues.mp hfr2
    rw [foldl_mdel_mem] at hp
    obtain ⟨hp, hall⟩ := hp
    have hmemfil : fr ∈ (mvalues (rejectedStore s r req).friends).filter (fun g =>
        (g.userId == req.userId && g.friendId == req.friendId) ||
        (g.userId == req.friendId && g.friendId == req.userId)) := by
      rw [List.mem_filter]
      refine ⟨mem_mvalues.mpr ⟨p, hp, hp2⟩, ?_⟩
      rcases hpair with ⟨e1, e2⟩ | ⟨e1, e2⟩ <;> simp [e1, e2]
    have := hall fr hmemfil
    rw [← hp2] at this
    exact this (hids2 p hp).symm

/-- Witness for C10: rejecting the pending request of `storeWithFriend` and
then re-requesting in the same direction fails. -/
theorem rejectFriendRequest_correct_witness :
    rejectFriendRequest storeWithFriend 1 = .ok (rejectedStore storeWithFriend 1 fr12) ∧
    createFriendRequest (rejectedStore storeWithFriend 1 fr12) 1 2 0 =
      .error "Friend request already exists" :=
  ⟨(rejectFriendRequest_correct storeWithFriend 1 fr12 0 (by decide) (by decide)).1,
   (rejectFriendRequest_correct storeWithFriend 1 fr12 0 (by decide) (by decide)).2.2.2.1⟩

/-! ## Claim C9: the calendar grid -/

namespace DateUtils

/-- Month preceding `m` (1 → 12). -/
def pmonth (m : Nat) : Nat := if m = 1 then 12 else m - 1

/-- Year of the month preceding month `m` of year `y`. -/
def pyear (y : Int) (m : Nat) : Int := if m = 1 then y - 1 else y

/-- Month following `m` (12 → 1). -/
def nmonth (m : Nat) : Nat := if m = 12 then 1 else m + 1

/-- Year of the month following month `m` of year `y`. -/
def nyear (y : Int) (m : Nat) : Int := if m = 12 then y + 1 else y

theorem daysInMonth_bounds (y : Int) (m : Nat) (h1 : 1 ≤ m) (h2 : m ≤ 12) :
    28 ≤ daysInMonth y m ∧ daysInMonth y m ≤ 31 := by
  interval_cases m <;> simp [daysInMonth] <;> split_ifs <;> omega

theorem pmonth_bounds (m : Nat) (h1 : 1 ≤ m) (h2 : m ≤ 12) :
    1 ≤ pmonth m ∧ pmonth m ≤ 12 := by
  unfold pmonth
  split <;> omega

theorem getDay_lt7 (d : CDate) : getDay d < 7 := by
  unfold getDay
  omega

theorem toRata_day (y : Int) (m : Nat) (d : Nat) :
    toRata ⟨y, m, d⟩ = toRata ⟨y, m, 1⟩ + ((d : Int) - 1) := by
  by_cases hm : m ≤ 2 <;> simp [toRata, hm] <;> ring

theorem toRata_prev_boundary (y : Int) (m : Nat) (h1 : 1 ≤ m) (h2 : m ≤ 12) :
    toRata ⟨pyear y m, pmonth m, daysInMonth (pyear y m) (pmonth m)⟩ + 1 = toRata ⟨y, m, 1⟩ := by
  unfold pyear pmonth
  interval_cases m <;>
    simp only [toRata, daysInMonth, isLeap] <;>
    norm_num <;>
    (try split_ifs) <;>
    (try simp_all [Bool.or_eq_true, Bool.and_eq_true, beq_iff_eq, bne_iff_ne]) <;>
    omega

theorem toRata_next_boundary (y : Int) (m : Nat) (h1 : 1 ≤ m) (h2 : m ≤ 12) :
    toRata ⟨y, m, daysInMonth y m⟩ + 1 = toRata ⟨nyear y m, nmonth m, 1⟩ := by
  unfold nyear nmonth
  interval_cases m <;>
    simp only [toRata, daysInMonth, isLeap] <;>
    norm_num <;>
    (try split_ifs) <;>
    (try simp_all [Bool.or_eq_true, Bool.and_eq_true, beq_iff_eq, bne_iff_ne]) <;>
    omega

theorem subMonths_one (y : Int) (m : Nat) (d : Nat) (h1 : 1 ≤ m) (h2 : m ≤ 12) :
    subMonths ⟨y, m, d⟩ 1 = ⟨pyear y m, pmonth m, d⟩ := by
  unfold subMonths addMonths pyear pmonth
  interval_cases m <;> simp [CDate.mk.injEq] <;> omega

theorem addMonths_one (y : Int) (m : Nat) (d : Nat) (h1 : 1 ≤ m) (h2 : m ≤ 12) :
    addMonths ⟨y, m, d⟩ 1 = ⟨nyear y m, nmonth m, d⟩ := by
  unfold addMonths nyear nmonth
  interval_cases m <;> simp [CDate.mk.injEq] <;> omega

theorem eachDayFrom_month (y : Int) (m : Nat) :
    ∀ (n : Nat) (d : Nat), 1 ≤ d → d + n ≤ daysInMonth y m + 1 →
      eachDayFrom n ⟨y, m, d⟩ = (List.range n).map (fun i => (⟨y, m, d + i⟩ : CDate)) := by
  intro n
  induction n with
  | zero => intro d _ _; simp [eachDayFrom]
  | succ k ih =>
    intro d hd hbound
    rw [eachDayFrom]
    by_cases hlt : d < daysInMonth y m
    · rw [show succDay ⟨y, m, d⟩ = ⟨y, m, d + 1⟩ from by simp [succDay, hlt]]
      rw [ih (d + 1) (by omega) (by omega)]
      rw [List.range_succ_eq_map, List.map_cons, List.map_map]
      refine congrArg₂ _ (by simp) ?_
      refine List.map_congr_left fun i _ => ?_
      simp [Function.comp, Nat.succ_eq_add_one]
      omega
    · have hk : k = 0 := by omega
      subst hk
      simp [eachDayFrom, List.range_succ]

theorem eachDayOfInterval_month (y : Int) (m : Nat) (d1 d2 : Nat)
    (h1 : 1 ≤ d1) (hle : d1 ≤ d2) (h2 : d2 ≤ daysInMonth y m) :
    eachDayOfInterval ⟨y, m, d1⟩ ⟨y, m, d2⟩ =
      (List.range (d2 - d1 + 1)).map (fun i => (⟨y, m, d1 + i⟩ : CDate)) := by
  unfold eachDayOfInterval
  rw [toRata_day y m d1, toRata_day y m d2]
  rw [show toRata ⟨y, m, 1⟩ + ((d2 : Int) - 1) - (toRata ⟨y, m, 1⟩ + ((d1 : Int) - 1)) + 1 =
    ((d2 - d1 + 1 : Nat) : Int) from by push_cast [hle]; ring]
  rw [Int.toNat_ofNat]
  exact eachDayFrom_month y m (d2 - d1 + 1) d1 h1 (by omega)

theorem nmonth_bounds (m : Nat) (h1 : 1 ≤ m) (h2 : m ≤ 12) :
    1 ≤ nmonth m ∧ nmonth m ≤ 12 := by
  unfold nmonth
  split <;> omega

/-- Normal form of the calendar grid: leading days of the previous month
(down to the Sunday on or before the 1st), the whole target month, then
leading days of the next month, 42 cells in total. -/
theorem getCalendarDays_eq (y : Int) (m : Nat) (dd : Nat) (hm1 : 1 ≤ m) (hm2 : m ≤ 12) :
    getCalendarDays ⟨y, m, dd⟩ =
      (List.range (getDay ⟨y, m, 1⟩)).map (fun i =>
        (⟨pyear y m, pmonth m,
          daysInMonth (pyear y m) (pmonth m) - getDay ⟨y, m, 1⟩ + 1 + i⟩ : CDate)) ++
      (List.range (daysInMonth y m)).map (fun i => (⟨y, m, 1 + i⟩ : CDate)) ++
      (List.range (42 - getDay ⟨y, m, 1⟩ - daysInMonth y m)).map
        (fun i => (⟨nyear y m, nmonth m, 1 + i⟩ : CDate)) := by
  have hFlt : getDay ⟨y, m, 1⟩ < 7 := getDay_lt7 _
  have hdim := daysInMonth_bounds y m hm1 hm2
  have hpm := pmonth_bounds m hm1 hm2
  have hnm := nmonth_bounds m hm1 hm2
  have hpdim := daysInMonth_bounds (pyear y m) (pmonth m) hpm.1 hpm.2
  have hndim := daysInMonth_bounds (nyear y m) (nmonth m) hnm.1 hnm.2
  simp only [getCalendarDays, startOfMonth, endOfMonth]
  rw [subMonths_one y m 1 hm1 hm2, addMonths_one y m 1 hm1 hm2]
  rw [eachDayOfInterval_month y m 1 (daysInMonth y m) le_rfl (by omega) le_rfl]
  dsimp only
  rw [show daysInMonth y m - 1 + 1 = daysInMonth y m from by omega]
  by_cases hF : getDay ⟨y, m, 1⟩ > 0
  · rw [if_pos hF]
    rw [eachDayOfInterval_month (pyear y m) (pmonth m)
      (daysInMonth (pyear y m) (pmonth m) - getDay ⟨y, m, 1⟩ + 1)
      (daysInMonth (pyear y m) (pmonth m)) (by omega) (by omega) le_rfl]
    simp only [List.length_map, List.length_range]
    rw [show daysInMonth (pyear y m) (pmonth m) -
        (daysInMonth (pyear y m) (pmonth m) - getDay ⟨y, m, 1⟩ + 1) + 1 =
        getDay ⟨y, m, 1⟩ from by omega]
    rw [if_pos (by omega :
      (42 : Int) - ((getDay ⟨y, m, 1⟩ + daysInMonth y m : Nat) : Int) > 0)]
    rw [show ((42 : Int) - ((getDay ⟨y, m, 1⟩ + daysInMonth y m : Nat) : Int)).toNat =
      42 - getDay ⟨y, m, 1⟩ - daysInMonth y m from by omega]
    rw [eachDayOfInterval_month (nyear y m) (nmonth m) 1
      (42 - getDay ⟨y, m, 1⟩ - daysInMonth y m) le_rfl (by omega) (by omega)]
    rw [show 42 - getDay ⟨y, m, 1⟩ - daysInMonth y m - 1 + 1 =
      42 - getDay ⟨y, m, 1⟩ - daysInMonth y m from by omega]
  · have hF0 : getDay ⟨y, m, 1⟩ = 0 := by omega
    rw [if_neg hF]
    rw [hF0]
    simp only [List.length_nil, List.length_map, List.length_range, Nat.zero_add]
    rw [if_pos (by omega : (42 : Int) - ((daysInMonth y m : Nat) : Int) > 0)]
    rw [show ((42 : Int) - ((daysInMonth y m : Nat) : Int)).toNat =
      42 - 0 - daysInMonth y m from by omega]
    rw [eachDayOfInterval_month (nyear y m) (nmonth m) 1
      (42 - 0 - daysInMonth y m) le_rfl (by omega) (by omega)]
    rw [show 42 - 0 - daysInMonth y m - 1 + 1 = 42 - 0 - daysInMonth y m from by omega]
    simp

/-- C9: for every valid input date, `getCalendarDays` returns exactly 42
dates, in strictly ascending chronological order (days-since-epoch strictly
increasing), whose first element falls on Sunday (`getDay = 0`), and which
contains every day of the input's month exactly once. -/
theorem getCalendarDays_correct (d : CDate) (hv : Valid d) :
    (getCalendarDays d).length = 42 ∧
    (getCalendarDays d).Pairwise (fun a b => toRata a < toRata b) ∧
    (getCalendarDays d).head?.map getDay = some 0 ∧
    (∀ k, 1 ≤ k → k ≤ daysInMonth d.year d.month →
      (getCalendarDays d).count ⟨d.year, d.month, k⟩ = 1) := by
  obtain ⟨y, m, dd⟩ := d
  obtain ⟨hm1, hm2, hd1, hd2⟩ := hv
  have hgrid := getCalendarDays_eq y m dd hm1 hm2
  have hFlt : getDay ⟨y, m, 1⟩ < 7 := getDay_lt7 _
  have hdim := daysInMonth_bounds y m hm1 hm2
  have hpm := pmonth_bounds m hm1 hm2
  have hnm := nmonth_bounds m hm1 hm2
  have hpdim := daysInMonth_bounds (pyear y m) (pmonth m) hpm.1 hpm.2
  have hndim := daysInMonth_bounds (nyear y m) (nmonth m) hnm.1 hnm.2
  have hpv : toRata ⟨pyear y m, pmonth m, 1⟩ =
      toRata ⟨y, m, 1⟩ - (daysInMonth (pyear y m) (pmonth m) : Int) := by
    have hb := toRata_prev_boundary y m hm1 hm2
    have hdl := toRata_day (pyear y m) (pmonth m) (daysInMonth (pyear y m) (pmonth m))
    omega
  have hnv : toRata ⟨nyear y m, nmonth m, 1⟩ = toRata ⟨y, m, 1⟩ + (daysInMonth y m : Int) := by
    have hb := toRata_next_boundary y m hm1 hm2
    have hdl := toRata_day y m (daysInMonth y m)
    omega
  have hprevToRata : ∀ i : Nat, i < getDay ⟨y, m, 1⟩ →
      toRata ⟨pyear y m, pmonth m,
        daysInMonth (pyear y m) (pmonth m) - getDay ⟨y, m, 1⟩ + 1 + i⟩ =
      toRata ⟨y, m, 1⟩ - getDay ⟨y, m, 1⟩ + i := by
    intro i hi
    have hdl := toRata_day (pyear y m) (pmonth m)
      (daysInMonth (pyear y m) (pmonth m) - getDay ⟨y, m, 1⟩ + 1 + i)
    omega
  have hmonthToRata : ∀ i : Nat, toRata ⟨y, m, 1 + i⟩ = toRata ⟨y, m, 1⟩ + i := by
    intro i
    have hdl := toRata_day y m (1 + i)
    omega
  have hnextToRata : ∀ i : Nat, toRata ⟨nyear y m, nmonth m, 1 + i⟩ =
      toRata ⟨y, m, 1⟩ + daysInMonth y m + i := by
    intro i
    have hdl := toRata_day (nyear y m) (nmonth m) (1 + i)
    omega
  rw [hgrid]
  have hmemA : ∀ x ∈ (List.range (getDay ⟨y, m, 1⟩)).map (fun i =>
      (⟨pyear y m, pmonth m,
        daysInMonth (pyear y m) (pmonth m) - getDay ⟨y, m, 1⟩ + 1 + i⟩ : CDate)),
      ∃ i : Nat, i < getDay ⟨y, m, 1⟩ ∧ toRata x = toRata ⟨y, m, 1⟩ - getDay ⟨y, m, 1⟩ + i := by
    intro x hx
    rw [List.mem_map] at hx
    obtain ⟨i, hi, rfl⟩ := hx
    rw [List.mem_range] at hi
    exact ⟨i, hi, hprevToRata i hi⟩
  have hmemB : ∀ x ∈ (List.range (daysInMonth y m)).map (fun i => (⟨y, m, 1 + i⟩ : CDate)),
      ∃ i : Nat, i < daysInMonth y m ∧ toRata x = toRata ⟨y, m, 1⟩ + i := by
    intro x hx
    rw [List.mem_map] at hx
    obtain ⟨i, hi, rfl⟩ := hx
    rw [List.mem_range] at hi
    exact ⟨i, hi, hmonthToRata i⟩
  have hmemC : ∀ x ∈ (List.range (42 - getDay ⟨y, m, 1⟩ - daysInMonth y m)).map (fun i =>
      (⟨nyear y m, nmonth m, 1 + i⟩ : CDate)),
      ∃ i : Nat, toRata x = toRata ⟨y, m, 1⟩ + daysInMonth y m + i := by
    intro x hx
    rw [List.mem_map] at hx
    obtain ⟨i, hi, rfl⟩ := hx
    exact ⟨i, hnextToRata i⟩
  refine ⟨?_, ?_, ?_, ?_⟩
  · simp only [List.length_append, List.length_map, List.length_range]
    omega
  · rw [List.pairwise_append, List.pairwise_append]
    refine ⟨⟨?_, ?_, ?_⟩, ?_, ?_⟩
    · rw [List.pairwise_map]
      refine (List.pairwise_lt_range _).imp_of_mem ?_
      intro a b ha hb hab
      rw [List.mem_range] at ha hb
      rw [hprevToRata a ha, hprevToRata b hb]
      omega
    · rw [List.pairwise_map]
      refine (List.pairwise_lt_range _).imp_of_mem ?_
      intro a b ha hb hab
      rw [hmonthToRata a, hmonthToRata b]
      omega
    · intro a ha b hb
      obtain ⟨i, hi, hia⟩ := hmemA a ha
      obtain ⟨j, hj, hjb⟩ := hmemB b hb
      omega
    · rw [List.pairwise_map]
      refine (List.pairwise_lt_range _).imp_of_mem ?_
      intro a b ha hb hab
      rw [hnextToRata a, hnextToRata b]
      omega
    · intro a ha c hc
      obtain ⟨j, hjc⟩ := hmemC c hc
      rcases List.mem_append.mp ha with ha | ha
      · obtain ⟨i, hi, hia⟩ := hmemA a ha
        omega
      · obtain ⟨i, hi, hia⟩ := hmemB a ha
        omega
  · have hhead : ∀ (n : Nat) (f : Nat → CDate), 0 < n →
        ((List.range n).map f).head? = some (f 0) := by
      intro n f hn
      cases n with
      | zero => omega
      | succ k =>
        rw [List.range_succ_eq_map]
        simp
    by_cases hF : 0 < getDay ⟨y, m, 1⟩
    · rw [List.head?_append, List.head?_append, hhead _ _ hF]
      show some (getDay ⟨pyear y m, pmonth m,
        daysInMonth (pyear y m) (pmonth m) - getDay ⟨y, m, 1⟩ + 1 + 0⟩) = some 0
      refine congrArg some ?_
      have ht := hprevToRata 0 hF
      have hFr : getDay ⟨y, m, 1⟩ = ((toRata ⟨y, m, 1⟩ + 4) % 7).toNat := rfl
      rw [show getDay ⟨pyear y m, pmonth m,
          daysInMonth (pyear y m) (pmonth m) - getDay ⟨y, m, 1⟩ + 1 + 0⟩ =
        ((toRata ⟨pyear y m, pmonth m,
          daysInMonth (pyear y m) (pmonth m) - getDay ⟨y, m, 1⟩ + 1 + 0⟩ + 4) % 7).toNat
        from rfl]
      omega
    · have hF0 : getDay ⟨y, m, 1⟩ = 0 := by omega
      rw [hF0]
      simp only [List.range_zero, List.map_nil, List.nil_append]
      rw [List.head?_append, hhead _ _ (by omega : 0 < daysInMonth y m)]
      show some (getDay ⟨y, m, 1 + 0⟩) = some 0
      refine congrArg some ?_
      show getDay ⟨y, m, 1⟩ = 0
      exact hF0
  · intro k hk1 hk2
    have hk2m : k ≤ daysInMonth y m := hk2
    have hA : List.count (⟨y, m, k⟩ : CDate)
        ((List.range (getDay ⟨y, m, 1⟩)).map (fun i =>
          (⟨pyear y m, pmonth m,
            daysInMonth (pyear y m) (pmonth m) - getDay ⟨y, m, 1⟩ + 1 + i⟩ : CDate))) = 0 := by
      rw [List.count_eq_zero]
      intro hmem
      rw [List.mem_map] at hmem
      obtain ⟨i, hi, heq⟩ := hmem
      rw [CDate.mk.injEq] at heq
      obtain ⟨e1, e2, e3⟩ := heq
      by_cases hm1eq : m = 1
      · have hval : pyear y m = y - 1 := by simp [pyear, hm1eq]
        omega
      · have hval : pmonth m = m - 1 := by simp [pmonth, hm1eq]
        omega
    have hC : List.count (⟨y, m, k⟩ : CDate)
        ((List.range (42 - getDay ⟨y, m, 1⟩ - daysInMonth y m)).map (fun i =>
          (⟨nyear y m, nmonth m, 1 + i⟩ : CDate))) = 0 := by
      rw [List.count_eq_zero]
      intro hmem
      rw [List.mem_map] at hmem
      obtain ⟨i, hi, heq⟩ := hmem
      rw [CDate.mk.injEq] at heq
      obtain ⟨e1, e2, e3⟩ := heq
      by_cases hm12 : m = 12
      · have hval : nyear y m = y + 1 := by simp [nyear, hm12]
        omega
      · have hval : nmonth m = m + 1 := by simp [nmonth, hm12]
        omega
    have hBmem : (⟨y, m, k⟩ : CDate) ∈
        (List.range (daysInMonth y m)).map (fun i => (⟨y, m, 1 + i⟩ : CDate)) := by
      rw [List.mem_map]
      exact ⟨k - 1, List.mem_range.mpr (by omega),
        by rw [CDate.mk.injEq]; exact ⟨rfl, rfl, by omega⟩⟩
    have hBnd : ((List.range (daysInMonth y m)).map
        (fun i => (⟨y, m, 1 + i⟩ : CDate))).Nodup := by
      refine List.Nodup.map ?_ (List.nodup_range _)
      intro a b hab
      simpa using congrArg CDate.day hab
    have hB := List.count_eq_one_of_mem hBnd hBmem
    rw [List.count_append, List.count_append, hA, hB, hC]

/-- Witness for C9 at a concrete date (April 15, 2025). -/
theorem getCalendarDays_correct_witness :
    Valid ⟨2025, 4, 15⟩ ∧ (getCalendarDays ⟨2025, 4, 15⟩).length = 42 :=
  ⟨by decide, (getCalendarDays_correct ⟨2025, 4, 15⟩ (by decide)).1⟩

end DateUtils

end DesignFlow
